import Mathlib

/-!
Verification development for the `literun` agent execution engine.

This file gives a shallow embedding in Lean 4 of the parts of the
repository exercised by the specification: the dynamic value universe
(`PyVal`, together with a model of `json.loads` / `json.dumps`), the
`TokenUsage` partial accumulator (`src/literun/usage.py`), the canonical
message model (`src/literun/message.py`), the OpenAI prompt serializer
(`src/literun/providers/openai/client.py`), the OpenAI streaming
correlation state machine (`src/literun/providers/openai/streams.py`),
the tool abstraction (`src/literun/tool.py`) and the agent execution
loop (`src/literun/runner.py`).  Python exceptions are rendered as
`Except`/sum results, mutable state is threaded explicitly, and Python
truthiness tests are made explicit where the source relies on them.
-/

namespace Literun

/-! ## Dynamic values

`PyVal` models the fragment of Python's dynamic value universe that the
embedded code manipulates: JSON-compatible values (`None`, booleans,
integers, strings, lists, and string-keyed dicts).  JSON numbers are
restricted to integers in this model; none of the embedded code paths
depend on floats. -/

inductive PyVal where
  | none
  | bool (b : Bool)
  | int (n : Int)
  | str (s : String)
  | list (xs : List PyVal)
  | dict (kvs : List (String × PyVal))

/-- `isinstance(v, dict)` for model values. -/
def PyVal.isDict : PyVal → Bool
  | .dict _ => true
  | _ => false

/-- First-occurrence lookup, modelling `d.get(key)` on a Python dict
(keys are unique in a real dict, so first occurrence is the value). -/
def dictGet (kvs : List (String × PyVal)) (key : String) : Option PyVal :=
  match kvs.find? (fun kv => kv.fst == key) with
  | some kv => some kv.snd
  | Option.none => Option.none

/-! ## A model of `json.loads`

A fuel-indexed recursive-descent parser over the character list of the
input.  `parseJson` succeeds exactly on (this model's fragment of)
syntactically valid JSON documents; `Option.none` plays the role of
`json.JSONDecodeError`.  The fragment covers objects, arrays, strings
with the basic escapes, integer numbers, `true`, `false` and `null`,
which is the JSON subset exercised by the embedded code. -/

def isJsonWs (c : Char) : Bool :=
  c = ' ' || c = '\t' || c = '\n' || c = '\r'

def skipWs : List Char → List Char
  | [] => []
  | c :: rest => if isJsonWs c then skipWs rest else c :: rest

/-- Parse the body of a JSON string literal (the opening quote already
consumed), returning the decoded string and the remaining input. -/
def parseStringBody : List Char → Option (String × List Char)
  | [] => Option.none
  | '"' :: rest => some ("", rest)
  | '\\' :: e :: rest => do
      let dec ←
        match e with
        | '"' => some "\""
        | '\\' => some "\\"
        | '/' => some "/"
        | 'n' => some "\n"
        | 't' => some "\t"
        | 'r' => some "\r"
        | _ => Option.none
      let (s, rem) ← parseStringBody rest
      pure (dec ++ s, rem)
  | '\\' :: [] => Option.none
  | c :: rest => do
      let (s, rem) ← parseStringBody rest
      pure (String.singleton c ++ s, rem)

def parseDigits (acc : Nat) : List Char → Option (Nat × List Char)
  | [] => some (acc, [])
  | c :: rest =>
      if c.isDigit then parseDigits (acc * 10 + (c.toNat - '0'.toNat)) rest
      else some (acc, c :: rest)

/-- Parse a JSON integer (optionally signed). -/
def parseIntLit : List Char → Option (Int × List Char)
  | '-' :: c :: rest =>
      if c.isDigit then do
        let (n, rem) ← parseDigits (c.toNat - '0'.toNat) rest
        pure (-(Int.ofNat n), rem)
      else Option.none
  | c :: rest =>
      if c.isDigit then do
        let (n, rem) ← parseDigits (c.toNat - '0'.toNat) rest
        pure (Int.ofNat n, rem)
      else Option.none
  | [] => Option.none

def stripPrefixChars : List Char → List Char → Option (List Char)
  | [], cs => some cs
  | p :: ps, c :: cs => if p = c then stripPrefixChars ps cs else Option.none
  | _ :: _, [] => Option.none

mutual

/-- Parse one JSON value. -/
def parseVal : Nat → List Char → Option (PyVal × List Char)
  | 0, _ => Option.none
  | Nat.succ fuel, cs =>
      match skipWs cs with
      | '{' :: rest => parseMembers fuel (skipWs rest) true
      | '[' :: rest => parseElems fuel (skipWs rest) true
      | '"' :: rest =>
          match parseStringBody rest with
          | some (s, rem) => some (PyVal.str s, rem)
          | Option.none => Option.none
      | 't' :: rest =>
          match stripPrefixChars ['r', 'u', 'e'] rest with
          | some rem => some (PyVal.bool true, rem)
          | Option.none => Option.none
      | 'f' :: rest =>
          match stripPrefixChars ['a', 'l', 's', 'e'] rest with
          | some rem => some (PyVal.bool false, rem)
          | Option.none => Option.none
      | 'n' :: rest =>
          match stripPrefixChars ['u', 'l', 'l'] rest with
          | some rem => some (PyVal.none, rem)
          | Option.none => Option.none
      | other =>
          match parseIntLit other with
          | some (n, rem) => some (PyVal.int n, rem)
          | Option.none => Option.none

/-- Parse object members after `{` (with `first = true` allowing an
immediate `}`). -/
def parseMembers : Nat → List Char → Bool → Option (PyVal × List Char)
  | 0, _, _ => Option.none
  | Nat.succ fuel, cs, first =>
      match cs, first with
      | '}' :: rest, true => some (PyVal.dict [], rest)
      | '"' :: rest, _ => do
          let (key, rem1) ← parseStringBody rest
          match skipWs rem1 with
          | ':' :: rem2 => do
              let (v, rem3) ← parseVal fuel rem2
              match skipWs rem3 with
              | '}' :: rem4 => pure (PyVal.dict [(key, v)], rem4)
              | ',' :: rem4 => do
                  let (tail, rem5) ← parseMembers fuel (skipWs rem4) false
                  match tail with
                  | PyVal.dict kvs => pure (PyVal.dict ((key, v) :: kvs), rem5)
                  | _ => Option.none
              | _ => Option.none
          | _ => Option.none
      | _, _ => Option.none

/-- Parse array elements after `[` (with `first = true` allowing an
immediate `]`). -/
def parseElems : Nat → List Char → Bool → Option (PyVal × List Char)
  | 0, _, _ => Option.none
  | Nat.succ fuel, cs, first =>
      match cs, first with
      | ']' :: rest, true => some (PyVal.list [], rest)
      | _, _ => do
          let (v, rem1) ← parseVal fuel cs
          match skipWs rem1 with
          | ']' :: rem2 => pure (PyVal.list [v], rem2)
          | ',' :: rem2 => do
              let (tail, rem3) ← parseElems fuel (skipWs rem2) false
              match tail with
              | PyVal.list xs => pure (PyVal.list (v :: xs), rem3)
              | _ => Option.none
          | _ => Option.none

end

/-- Model of `json.loads`: parse a complete JSON document, requiring
the whole input to be consumed (up to trailing whitespace). -/
def parseJson (s : String) : Option PyVal :=
  match parseVal (s.length + 2) s.toList with
  | some (v, rem) => if skipWs rem = [] then some v else Option.none
  | Option.none => Option.none

/-! ## A model of `json.dumps` and `str()` -/

/-- Escape a string for JSON output (basic escapes only). -/
def jsonEscape (s : String) : String :=
  s.toList.foldl
    (fun acc c =>
      acc ++
        (if c = '"' then "\\\""
         else if c = '\\' then "\\\\"
         else if c = '\n' then "\\n"
         else if c = '\t' then "\\t"
         else if c = '\r' then "\\r"
         else String.singleton c))
    ""

mutual

/-- Model of `json.dumps` (with default separators). -/
def jsonDumps : PyVal → String
  | PyVal.none => "null"
  | PyVal.bool true => "true"
  | PyVal.bool false => "false"
  | PyVal.int n => toString n
  | PyVal.str s => "\"" ++ jsonEscape s ++ "\""
  | PyVal.list xs => "[" ++ jsonDumpsList xs ++ "]"
  | PyVal.dict kvs => "\x7b" ++ jsonDumpsMembers kvs ++ "\x7d"

def jsonDumpsList : List PyVal → String
  | [] => ""
  | [x] => jsonDumps x
  | x :: rest => jsonDumps x ++ ", " ++ jsonDumpsList rest

def jsonDumpsMembers : List (String × PyVal) → String
  | [] => ""
  | [kv] => "\"" ++ jsonEscape kv.fst ++ "\": " ++ jsonDumps kv.snd
  | kv :: rest =>
      "\"" ++ jsonEscape kv.fst ++ "\": " ++ jsonDumps kv.snd ++ ", " ++
        jsonDumpsMembers rest

end

mutual

/-- Model of Python `repr()` on JSON-like values (single-quoted
strings, `True`/`False`/`None`). -/
def pyRepr : PyVal → String
  | PyVal.none => "None"
  | PyVal.bool true => "True"
  | PyVal.bool false => "False"
  | PyVal.int n => toString n
  | PyVal.str s => "'" ++ s ++ "'"
  | PyVal.list xs => "[" ++ pyReprList xs ++ "]"
  | PyVal.dict kvs => "\x7b" ++ pyReprMembers kvs ++ "\x7d"

def pyReprList : List PyVal → String
  | [] => ""
  | [x] => pyRepr x
  | x :: rest => pyRepr x ++ ", " ++ pyReprList rest

def pyReprMembers : List (String × PyVal) → String
  | [] => ""
  | [kv] => "'" ++ kv.fst ++ "': " ++ pyRepr kv.snd
  | kv :: rest => "'" ++ kv.fst ++ "': " ++ pyRepr kv.snd ++ ", " ++ pyReprMembers rest

end

/-- Model of Python `str()`: identity on strings, `repr`-style
otherwise. -/
def pyStr : PyVal → String
  | PyVal.str s => s
  | v => pyRepr v

/-! ## `TokenUsage` (`src/literun/usage.py`)

Fields mirror the `TokenUsage` dataclass: `input_tokens` and
`output_tokens` are required, all other buckets and the reported total
are optional. -/

structure TokenUsage where
  input_tokens : Int
  output_tokens : Int
  cached_read_tokens : Option Int := Option.none
  cached_write_tokens : Option Int := Option.none
  reasoning_tokens : Option Int := Option.none
  tool_use_tokens : Option Int := Option.none
  total_tokens : Option Int := Option.none
deriving Repr, DecidableEq

namespace TokenUsage

/-- The inner `_add_opt` helper of `TokenUsage.__add__`: `None` on both
sides stays `None`, otherwise missing operands count as `0`.  (Python's
`a or 0` also maps `0` to `0`, which agrees with `Option.getD 0`.) -/
def addOpt (a b : Option Int) : Option Int :=
  match a, b with
  | Option.none, Option.none => Option.none
  | _, _ => some (a.getD 0 + b.getD 0)

/-- `TokenUsage.resolved_total_tokens`: the reported total when present,
otherwise the sum of the present buckets. -/
def resolved_total_tokens (u : TokenUsage) : Int :=
  match u.total_tokens with
  | some t => t
  | Option.none =>
      u.input_tokens + u.output_tokens + u.cached_read_tokens.getD 0 +
        u.cached_write_tokens.getD 0 + u.reasoning_tokens.getD 0 +
        u.tool_use_tokens.getD 0

/-- `TokenUsage.__add__`. -/
def add (u other : TokenUsage) : TokenUsage where
  input_tokens := u.input_tokens + other.input_tokens
  output_tokens := u.output_tokens + other.output_tokens
  cached_read_tokens := addOpt u.cached_read_tokens other.cached_read_tokens
  cached_write_tokens := addOpt u.cached_write_tokens other.cached_write_tokens
  reasoning_tokens := addOpt u.reasoning_tokens other.reasoning_tokens
  tool_use_tokens := addOpt u.tool_use_tokens other.tool_use_tokens
  total_tokens := some (u.resolved_total_tokens + other.resolved_total_tokens)

end TokenUsage

/-- `Runner._new_token_usage`: the zeroed accumulator each run starts
from. -/
def newTokenUsage : TokenUsage :=
  { input_tokens := 0, output_tokens := 0, total_tokens := some 0 }

/-! ## Canonical messages (`src/literun/message.py`)

Content blocks are a tagged union; pydantic's discriminated-union
machinery guarantees the shape, while the `model_validator` hooks run
the semantic checks, which we embed as constructor functions returning
`Except`. -/

inductive MessageRole where
  | system
  | user
  | assistant
deriving Repr, DecidableEq

inductive CBlock where
  | text (text : String)
  | tool_call (call_id name : String) (arguments : List (String × PyVal))
  | tool_output (call_id : String) (name : Option String) (output : PyVal)
      (is_error : Option Bool)
  | reasoning (summary signature reasoning_id : Option String)
      (provider_meta : Option (List (String × PyVal)))

/-- The pydantic discriminator tag of a block. -/
def CBlock.typeTag : CBlock → String
  | .text _ => "text"
  | .tool_call _ _ _ => "tool_call"
  | .tool_output _ _ _ _ => "tool_output"
  | .reasoning _ _ _ _ => "reasoning"

/-- `ReasoningBlock._validate_reasoning_payload`: constructing a
reasoning block fails when all four optional fields are absent
(the check is `is None`, not truthiness). -/
def mkReasoningBlock (summary signature reasoning_id : Option String)
    (provider_meta : Option (List (String × PyVal))) : Except String CBlock :=
  if summary.isNone && signature.isNone &&
      reasoning_id.isNone && provider_meta.isNone then
    Except.error
      "reasoning block requires at least one of summary/signature/reasoning_id/provider_meta"
  else
    Except.ok (CBlock.reasoning summary signature reasoning_id provider_meta)

structure PromptMessage where
  role : MessageRole
  content : List CBlock

/-- The `allowed_by_role` table of
`PromptMessage._validate_message_invariants`. -/
def allowedByRole : MessageRole → List String
  | .system => ["text"]
  | .assistant => ["text", "tool_call", "reasoning"]
  | .user => ["text", "tool_output"]

/-- The per-block loop of `PromptMessage._validate_message_invariants`:
fail at the first block whose type is not permitted for the role. -/
def validateBlocks (role : MessageRole) : List CBlock → Except String Unit
  | [] => Except.ok ()
  | b :: rest =>
      if b.typeTag ∈ allowedByRole role then validateBlocks role rest
      else
        Except.error
          ("block type '" ++ b.typeTag ++ "' is not valid for role")

/-- `PromptMessage` construction with
`_validate_message_invariants`: empty content or a block not permitted
for the role fails construction; nothing is dropped. -/
def mkPromptMessage (role : MessageRole) (content : List CBlock) :
    Except String PromptMessage :=
  if content.isEmpty then Except.error "message content cannot be empty"
  else
    match validateBlocks role content with
    | Except.error e => Except.error e
    | Except.ok _ => Except.ok { role := role, content := content }

/-! ## OpenAI prompt serialization
(`src/literun/providers/openai/client.py`, `ChatOpenAI._serialize_prompt`)

Each canonical block serializes to exactly one OpenAI Responses input
item; errors are `AgentSerializationError`. -/

def MessageRole.wireName : MessageRole → String
  | .system => "system"
  | .user => "user"
  | .assistant => "assistant"

inductive OAIItem where
  | inputText (role : String) (text : String)
  | outputText (text : String)
  | functionCall (call_id name arguments : String)
  | functionCallOutput (call_id output : String)
  | reasoningItem (summaryText : String) (encrypted : Option String)
deriving Repr, DecidableEq

/-- Python truthiness of an optional string: `None` and `""` are
falsy. -/
def strFalsy : Option String → Bool
  | Option.none => true
  | some s => s.isEmpty

/-- Serialize a single canonical block for the OpenAI backend. -/
def serializeBlock (role : MessageRole) : CBlock → Except String OAIItem
  | CBlock.text t =>
      match role with
      | .system => Except.ok (OAIItem.inputText "system" t)
      | .user => Except.ok (OAIItem.inputText "user" t)
      | .assistant => Except.ok (OAIItem.outputText t)
  | CBlock.tool_call call_id name arguments =>
      Except.ok (OAIItem.functionCall call_id name (jsonDumps (PyVal.dict arguments)))
  | CBlock.tool_output call_id _ output _ =>
      Except.ok
        (OAIItem.functionCallOutput call_id
          (match output with
           | PyVal.str s => s
           | v => jsonDumps v))
  | CBlock.reasoning summary signature reasoning_id _ =>
      if strFalsy reasoning_id || strFalsy summary then
        Except.error "OpenAI reasoning replay requires reasoning_id and summary"
      else
        Except.ok (OAIItem.reasoningItem (summary.getD "") signature)

def serializeBlocks (role : MessageRole) : List CBlock → Except String (List OAIItem)
  | [] => Except.ok []
  | b :: rest =>
      match serializeBlock role b with
      | Except.error e => Except.error e
      | Except.ok item =>
          match serializeBlocks role rest with
          | Except.error e => Except.error e
          | Except.ok items => Except.ok (item :: items)

/-- `ChatOpenAI._serialize_prompt`: serialize every block of every
message in order; the first failing block aborts with
`AgentSerializationError`. -/
def serializePrompt : List PromptMessage → Except String (List OAIItem)
  | [] => Except.ok []
  | m :: rest =>
      match serializeBlocks m.role m.content with
      | Except.error e => Except.error e
      | Except.ok items =>
          match serializePrompt rest with
          | Except.error e => Except.error e
          | Except.ok tail => Except.ok (items ++ tail)

/-! ## Stream events (`src/literun/events.py`)

One constructor per event dataclass.  Payload fields that Python types
as `str | dict | None` are `Option PyVal` here; identifier fields are
`Option String`.  `raw_event` (the untouched backend chunk) is omitted:
no embedded consumer reads it. -/

inductive StreamEvent where
  | messageDelta (id : Option String) (delta : Option PyVal)
  | messageDone (id : Option String) (output : Option PyVal)
  | toolDelta (id name call_id : Option String) (delta : Option PyVal)
  | toolDone (id name call_id : Option String) (output : Option PyVal)
  | toolOutputDone (id name : Option String) (output : Option PyVal)
  | reasoningDelta (id : Option String) (delta : Option PyVal)
  | reasoningDone (id : Option String) (output : Option PyVal)
  | otherEvent (id : Option String) (token_usage : Option TokenUsage)
  | streamFault (id : Option String) (error : Option String)
  | streamStart (id : Option String) (token_usage : Option TokenUsage)
  | streamEnd (id : Option String) (token_usage : Option TokenUsage)

/-- `AdapterMixin.normalize_arguments`
(`src/literun/providers/base.py`): dicts pass through, strings are
JSON-parsed and kept only when they parse to an object (otherwise the
raw string is returned), anything else becomes `{}`. -/
def normalizeArguments : PyVal → PyVal
  | PyVal.dict kvs => PyVal.dict kvs
  | PyVal.str s =>
      match parseJson s with
      | some (PyVal.dict kvs) => PyVal.dict kvs
      | some _ => PyVal.str s
      | Option.none => PyVal.str s
  | _ => PyVal.dict []

/-! ## OpenAI streaming correlation state machine
(`src/literun/providers/openai/streams.py`)

Raw OpenAI Responses chunks are modelled by one constructor per
`chunk.type` the adapter inspects, carrying exactly the attributes the
adapter reads (absent attributes are `Option.none`, matching
`getattr(chunk, ..., None)`). -/

/-- The attributes read from `response.usage` on a
`response.completed` chunk (`input_tokens_details.cached_tokens` and
`output_tokens_details.reasoning_tokens` are flattened). -/
structure UsagePayload where
  input_tokens : Option Int
  output_tokens : Option Int
  cached_tokens : Option Int
  reasoning_tokens : Option Int
  total_tokens : Option Int
deriving Repr, DecidableEq

/-- The attributes read from the `item` of a
`response.output_item.added` chunk. -/
structure OutputItemPayload where
  type : Option String
  id : Option String
  call_id : Option String
  name : Option String
deriving Repr, DecidableEq

inductive Chunk where
  | responseCreated (response_id : Option String)
  | outputTextDelta (item_id : Option String) (delta : Option String)
  | outputTextDone (item_id : Option String) (text : Option String)
  | argsDelta (item_id : Option String) (delta : Option String)
  | argsDone (item_id : Option String) (arguments : Option String)
  | reasoningSummaryDelta (item_id : Option String) (delta : Option String)
  | reasoningSummaryDone (item_id : Option String) (text : Option String)
  | outputItemAdded (item : Option OutputItemPayload)
  | responseCompleted (response_id : Option String) (usage : Option UsagePayload)
  | otherChunk (chunkType : String)
deriving Repr, DecidableEq

/-- One `_tool_call_registry` entry: the metadata captured when a
`function_call` output item is registered (the redundant `item_id`
field, never read back, is dropped). -/
structure RegEntry where
  call_id : Option String
  name : Option String
  arguments_buffer : String
deriving Repr, DecidableEq

/-- The registry is a Python dict keyed by item id: an insertion-ordered
association list with unique keys. -/
abbrev Registry := List (String × RegEntry)

def regLookup (r : Registry) (k : String) : Option RegEntry :=
  (r.find? (fun kv => kv.fst == k)).map (fun kv => kv.snd)

/-- Dict assignment `r[k] = e`: replace in place when the key exists,
append otherwise (Python dicts keep the original insertion position on
overwrite). -/
def regInsert (r : Registry) (k : String) (e : RegEntry) : Registry :=
  match r with
  | [] => [(k, e)]
  | kv :: rest => if kv.fst == k then (k, e) :: rest else kv :: regInsert rest k e

/-- Mutable state of one `OpenAIStreamAdapter` instance. -/
structure AdapterState where
  tool_call_registry : Registry
  stream_started : Bool
  stream_end : Bool
  turn_has_tool_calls : Bool
  turn_text_done : Bool
deriving Repr, DecidableEq

def initAdapterState : AdapterState :=
  { tool_call_registry := [], stream_started := false, stream_end := false,
    turn_has_tool_calls := false, turn_text_done := false }

/-- `OpenAIStreamAdapter.extract_token_usage`: only a
`response.completed` chunk with a usage payload yields a `TokenUsage`. -/
def chunkTokenUsage : Chunk → Option TokenUsage
  | Chunk.responseCompleted _ (some u) =>
      some
        { input_tokens := u.input_tokens.getD 0
          output_tokens := u.output_tokens.getD 0
          cached_read_tokens := some (u.cached_tokens.getD 0)
          reasoning_tokens := some (u.reasoning_tokens.getD 0)
          total_tokens := u.total_tokens }
  | _ => Option.none

/-- `OpenAIStreamAdapter._register_tool_call_from_output_item`: register
the item unless its id is falsy. -/
def registerToolCallFromOutputItem (reg : Registry) (item : OutputItemPayload) :
    Registry :=
  match item.id with
  | Option.none => reg
  | some item_id =>
      if item_id.isEmpty then reg
      else
        regInsert reg item_id
          { call_id := item.call_id, name := item.name, arguments_buffer := "" }

/-- `OpenAIStreamAdapter._process_chunk`, one branch per chunk type in
source order; the returned `Option StreamEvent` is `Option.none` where
the Python method returns `None`. -/
def processChunk (st : AdapterState) : Chunk → AdapterState × Option StreamEvent
  | Chunk.responseCreated response_id =>
      let st1 := { st with tool_call_registry := [], stream_end := false,
                           turn_has_tool_calls := false, turn_text_done := false }
      if st1.stream_started = false then
        ({ st1 with stream_started := true },
          some (StreamEvent.streamStart response_id
            (chunkTokenUsage (Chunk.responseCreated response_id))))
      else (st1, Option.none)
  | Chunk.outputTextDelta item_id delta =>
      (st, some (StreamEvent.messageDelta item_id (delta.map PyVal.str)))
  | Chunk.outputTextDone item_id text =>
      ({ st with stream_end := true, turn_text_done := true },
        some (StreamEvent.messageDone item_id (text.map PyVal.str)))
  | Chunk.argsDelta item_id delta =>
      let st1 := { st with turn_has_tool_calls := true }
      if strFalsy item_id then
        (st1, some (StreamEvent.otherEvent Option.none Option.none))
      else
        let iid := item_id.getD ""
        match regLookup st1.tool_call_registry iid with
        | Option.none => (st1, some (StreamEvent.otherEvent Option.none Option.none))
        | some meta =>
            let d := delta.getD ""
            let meta1 := { meta with arguments_buffer := meta.arguments_buffer ++ d }
            let st2 := { st1 with
              tool_call_registry := regInsert st1.tool_call_registry iid meta1 }
            match meta1.call_id, meta1.name with
            | some call_id, some name =>
                if call_id.isEmpty || name.isEmpty then
                  (st2, some (StreamEvent.otherEvent Option.none Option.none))
                else
                  (st2, some (StreamEvent.toolDelta item_id (some name) (some call_id)
                    (some (PyVal.str d))))
            | _, _ => (st2, some (StreamEvent.otherEvent Option.none Option.none))
  | Chunk.argsDone item_id arguments =>
      let st1 := { st with turn_has_tool_calls := true }
      if strFalsy item_id then
        (st1, some (StreamEvent.otherEvent Option.none Option.none))
      else
        let iid := item_id.getD ""
        match regLookup st1.tool_call_registry iid with
        | Option.none => (st1, some (StreamEvent.otherEvent Option.none Option.none))
        | some meta =>
            let raw :=
              match arguments with
              | some a => a
              | Option.none => meta.arguments_buffer
            let normalized := normalizeArguments (PyVal.str raw)
            match meta.call_id, meta.name with
            | some call_id, some name =>
                if call_id.isEmpty || name.isEmpty then
                  (st1, some (StreamEvent.otherEvent Option.none Option.none))
                else
                  (st1, some (StreamEvent.toolDone item_id (some name) (some call_id)
                    (some normalized)))
            | _, _ => (st1, some (StreamEvent.otherEvent Option.none Option.none))
  | Chunk.reasoningSummaryDelta item_id delta =>
      (st, some (StreamEvent.reasoningDelta item_id (delta.map PyVal.str)))
  | Chunk.reasoningSummaryDone item_id text =>
      (st, some (StreamEvent.reasoningDone item_id (text.map PyVal.str)))
  | Chunk.outputItemAdded item =>
      match item with
      | some it =>
          if it.type = some "function_call" then
            let reg := registerToolCallFromOutputItem st.tool_call_registry it
            ({ st with turn_has_tool_calls := true, tool_call_registry := reg },
              Option.none)
          else (st, Option.none)
      | Option.none => (st, Option.none)
  | Chunk.responseCompleted response_id usage =>
      let u := chunkTokenUsage (Chunk.responseCompleted response_id usage)
      if st.turn_has_tool_calls = true then
        (st, some (StreamEvent.otherEvent response_id u))
      else if st.turn_text_done = true then
        (st, some (StreamEvent.streamEnd response_id u))
      else (st, some (StreamEvent.otherEvent response_id u))
  | Chunk.otherChunk c =>
      (st, some (StreamEvent.otherEvent Option.none
        (chunkTokenUsage (Chunk.otherChunk c))))

/-- `StreamAdapter.process_stream`: fold `_process_chunk` over the
chunks, keeping the non-`None` events in order. -/
def processStreamFrom (st : AdapterState) : List Chunk → AdapterState × List StreamEvent
  | [] => (st, [])
  | c :: rest =>
      let r1 := processChunk st c
      let r2 := processStreamFrom r1.fst rest
      (r2.fst,
        match r1.snd with
        | some e => e :: r2.snd
        | Option.none => r2.snd)

def processStream (chunks : List Chunk) : AdapterState × List StreamEvent :=
  processStreamFrom initAdapterState chunks

/-! ## Runner stream helpers (`src/literun/runner.py`) -/

/-- The wire-neutral `ToolCall` (`src/literun/constants.py`):
`arguments` is a dict or a raw string, both covered by `PyVal`. -/
structure ToolCall where
  call_id : String
  name : String
  arguments : PyVal

/-- `Runner._extract_stream_tool_call`: only a `tool.call.done` event
with a usable call id and name yields a normalized `ToolCall`. -/
def extractStreamToolCall : StreamEvent → Option ToolCall
  | StreamEvent.toolDone id name call_id output =>
      let cid := if strFalsy call_id then id else call_id
      match cid with
      | Option.none => Option.none
      | some c =>
          if c.isEmpty then Option.none
          else
            match name with
            | Option.none => Option.none
            | some n =>
                if n.isEmpty then Option.none
                else
                  let args :=
                    match output with
                    | some (PyVal.dict kvs) => PyVal.dict kvs
                    | some (PyVal.str s) =>
                        match parseJson s with
                        | some (PyVal.dict kvs) => PyVal.dict kvs
                        | some _ => PyVal.str s
                        | Option.none => PyVal.str s
                    | _ => PyVal.dict []
                  some { call_id := c, name := n, arguments := args }
  | _ => Option.none

/-- The per-turn collection loop of `Runner._stream_sync`: each event
with an extractable tool call is appended to `streamed_tool_calls`. -/
def collectStreamToolCalls (events : List StreamEvent) : List ToolCall :=
  events.filterMap extractStreamToolCall

/-- `Runner._stream_text_fragment`: delta events always contribute
their text; a done event's text is used only when `allow_done` is set
(i.e. nothing has been accumulated yet this turn). -/
def streamTextFragment (event : StreamEvent) (allow_done : Bool) : String :=
  match event with
  | StreamEvent.messageDelta _ delta =>
      match delta with
      | some (PyVal.str s) => s
      | some (PyVal.dict kvs) =>
          match dictGet kvs "text" with
          | some (PyVal.str s) => s
          | _ => ""
      | _ => ""
  | StreamEvent.messageDone _ output =>
      if allow_done then
        match output with
        | some (PyVal.str s) => s
        | some (PyVal.dict kvs) =>
            match dictGet kvs "text" with
            | some (PyVal.str s) => s
            | _ => ""
        | _ => ""
      else ""
  | _ => ""

/-- One step of the `turn_text` accumulation in `Runner._stream_sync`:
`turn_text += _stream_text_fragment(event, allow_done=not turn_text)`. -/
def accumStep (acc : String) (e : StreamEvent) : String :=
  acc ++ streamTextFragment e acc.isEmpty

/-- The text accumulated for one streamed turn. -/
def accumTurnText (events : List StreamEvent) : String :=
  events.foldl accumStep ""

/-! ## Tools (`src/literun/tool.py`)

Exceptions in the tool path are values of `ToolFault`.  The embedded
code only ever raises the first two classes; `otherFault` models any
exception outside the `AgentToolCallError`/`AgentToolExecutionError`
taxonomy (e.g. a fault inside the runtime-injection machinery), which
no embedded code path constructs. -/

inductive ToolFault where
  | toolCallFault (msg : String)
  | toolExecutionFault (msg : String)
  | otherFault (msg : String)
deriving Repr, DecidableEq

/-- The rendered message of a fault, modelling `str(exc)` in the
`f"Error executing tool '{tool_name}': {exc}"` observation. -/
def ToolFault.message : ToolFault → String
  | .toolCallFault m => m
  | .toolExecutionFault m => m
  | .otherFault m => m

/-- A `Tool` value: the caller-supplied logic is a function from the
validated argument dict to either a result value or the message of the
exception it raised.  The optional schema validators model the pydantic
input/output validation collaborators. -/
structure Tool where
  name : String
  func : Option (List (String × PyVal) → Except String PyVal)
  input_schema : Option (List (String × PyVal) → Except String (List (String × PyVal))) :=
    Option.none
  output_schema : Option (PyVal → Except String PyVal) := Option.none

/-- `Tool._validate_input`: schema failures raise
`AgentToolCallError`. -/
def Tool.validateInput (t : Tool) (args : List (String × PyVal)) :
    Except ToolFault (List (String × PyVal)) :=
  match t.input_schema with
  | Option.none => Except.ok args
  | some validator =>
      match validator args with
      | Except.ok validated => Except.ok validated
      | Except.error e =>
          Except.error (ToolFault.toolCallFault
            ("Invalid arguments for tool " ++ t.name ++ ": " ++ e))

/-- `Tool._validate_output`: schema failures raise
`AgentToolExecutionError`. -/
def Tool.validateOutput (t : Tool) (output : PyVal) : Except ToolFault PyVal :=
  match t.output_schema with
  | Option.none => Except.ok output
  | some validator =>
      match validator output with
      | Except.ok validated => Except.ok validated
      | Except.error e =>
          Except.error (ToolFault.toolExecutionFault
            ("Invalid output from tool " ++ t.name ++ ": " ++ e))

/-- `Tool.run` (synchronous): missing implementation and any exception
escaping the tool's own logic become `AgentToolExecutionError`;
argument-validation failures become `AgentToolCallError`.  The
runtime-context injection step, which only adds a sentinel-typed
parameter and raises nothing for the embedded flows, is omitted. -/
def Tool.run (t : Tool) (args : List (String × PyVal)) : Except ToolFault PyVal :=
  match t.func with
  | Option.none =>
      Except.error (ToolFault.toolExecutionFault
        ("Tool " ++ t.name ++ " has no synchronous implementation"))
  | some f =>
      match t.validateInput args with
      | Except.error e => Except.error e
      | Except.ok validated =>
          match f validated with
          | Except.error e =>
              Except.error (ToolFault.toolExecutionFault
                ("Tool " ++ t.name ++ " execution failed: " ++ e))
          | Except.ok result => t.validateOutput result

/-! ## Runner tool dispatch (`src/literun/runner.py`) -/

/-- `Runner._validate_and_prepare_tool`: resolve the named tool (first
match; `agent.tools` may be absent or empty), then coerce string
arguments through `json.loads` and insist on an object. -/
def findTool (tools : Option (List Tool)) (tool_name : String) : Option Tool :=
  match tools with
  | some ts => ts.find? (fun t => t.name == tool_name)
  | Option.none => Option.none

def validateAndPrepareTool (tools : Option (List Tool)) (tool_name : String)
    (tool_args : PyVal) : Except ToolFault (Tool × List (String × PyVal)) :=
  match findTool tools tool_name with
  | Option.none =>
      Except.error (ToolFault.toolCallFault ("Tool '" ++ tool_name ++ "' not found"))
  | some tool =>
      match tool_args with
      | PyVal.str s =>
          match parseJson s with
          | Option.none =>
              Except.error (ToolFault.toolCallFault
                ("Invalid JSON arguments for tool '" ++ tool_name ++ "'"))
          | some (PyVal.dict kvs) => Except.ok (tool, kvs)
          | some _ =>
              Except.error (ToolFault.toolCallFault
                ("Tool '" ++ tool_name ++ "' arguments must be a JSON object"))
      | PyVal.dict kvs => Except.ok (tool, kvs)
      | _ =>
          Except.error (ToolFault.toolCallFault
            ("Tool '" ++ tool_name ++ "' arguments must be a JSON object"))

/-- `Runner._run_tool`: `AgentToolCallError` and
`AgentToolExecutionError` are caught and converted into an error string
returned as the tool's output; any other exception is wrapped as
`AgentExecutionError` and re-raised (`Except.error`, aborting the
run). -/
def runTool (tools : Option (List Tool)) (tool_name : String) (tool_args : PyVal) :
    Except String String :=
  let attempt : Except ToolFault PyVal :=
    match validateAndPrepareTool tools tool_name tool_args with
    | Except.error e => Except.error e
    | Except.ok (tool, validated_args) => tool.run validated_args
  match attempt with
  | Except.ok result => Except.ok (pyStr result)
  | Except.error (ToolFault.toolCallFault m) =>
      Except.ok ("Error executing tool '" ++ tool_name ++ "': " ++ m)
  | Except.error (ToolFault.toolExecutionFault m) =>
      Except.ok ("Error executing tool '" ++ tool_name ++ "': " ++ m)
  | Except.error (ToolFault.otherFault _) =>
      Except.error "Unexpected internal error during tool execution"

/-! ## The non-streaming agent loop (`src/literun/runner.py`)

The conversation is the provider-native message list; we model the
OpenAI wire shapes produced by the embedded adapters
(`OpenAIResponseAdapter.build_tool_output_message` yields one
`function_call_output` entry per executed call). -/

inductive WireItem where
  | assistantText (text : String)
  | functionCall (call_id name arguments : String)
  | functionCallOutput (call_id output : String)
deriving Repr, DecidableEq

/-- Normalized run records (`src/literun/items.py`), restricted to the
constructors the embedded loop appends. -/
inductive RunItem where
  | messageOutput (content : String)
  | toolCallOutput (call_id name result : String)
deriving Repr, DecidableEq

/-- One scripted backend turn, as extracted through the response
adapter by `Runner._process_llm_response` (mirroring the deterministic
test adapter the repository drives the loop with): the turn's text,
tool calls, optional usage, run items, and the continuation messages
`build_tool_call_message` returns for it. -/
structure ScriptedResponse where
  text : String
  tool_calls : List ToolCall
  usage : Option TokenUsage := Option.none
  items : List RunItem := []
  tool_call_messages : List WireItem := []

/-- A scripted backend: the response produced by the k-th invocation of
`generate` within the run (scripted responses are replayed in order,
independent of the accumulated conversation). -/
abbrev Backend := Nat → ScriptedResponse

/-- Agent configuration relevant to the loop (`src/literun/agent.py`). -/
structure AgentCfg where
  tools : Option (List Tool) := Option.none
  max_iterations : Nat := 20

/-- `Agent._validate_config`: `max_iterations` must be at least 1. -/
def AgentCfg.validateConfig (a : AgentCfg) : Except String AgentCfg :=
  if a.max_iterations < 1 then Except.error "max_iterations must be >= 1"
  else Except.ok a

inductive LoopResult where
  | success (output : String) (usage : TokenUsage)
  | maxIterations
  | executionFault (msg : String)
deriving Repr, DecidableEq

/-- Mutable loop state: the conversation and the accumulated run
items. -/
structure LoopState where
  messages : List WireItem
  items : List RunItem
deriving Repr, DecidableEq

/-- `Runner._execute_nonstream_tool_calls_sync` together with
`Runner._handle_tool_execution_result`: run each call in request order;
a non-fatal outcome appends a `ToolCallOutputItem` and a
`function_call_output` message, a fatal `AgentExecutionError`
propagates (aborting, with the state reached so far). -/
def execToolCalls (tools : Option (List Tool)) :
    List ToolCall → LoopState → Option String × LoopState
  | [], st => (Option.none, st)
  | tc :: rest, st =>
      match runTool tools tc.name tc.arguments with
      | Except.error e => (some e, st)
      | Except.ok tool_output =>
          execToolCalls tools rest
            { messages := st.messages ++ [WireItem.functionCallOutput tc.call_id tool_output]
              items := st.items ++ [RunItem.toolCallOutput tc.call_id tc.name tool_output] }

/-- The `while iteration < agent.max_iterations` loop of
`Runner._run_nonstream_sync`, with `fuel = max_iterations - iteration`
and `turn` counting backend invocations: extract the turn, accumulate
usage and items, finish on a turn without tool calls, otherwise append
the continuation messages, dispatch every tool call, and iterate; an
exhausted bound yields the max-iterations error. -/
def runLoop (tools : Option (List Tool)) (backend : Backend) (turn : Nat)
    (st : LoopState) (usage : TokenUsage) : Nat → LoopResult × LoopState
  | 0 => (LoopResult.maxIterations, st)
  | Nat.succ fuel =>
      let resp := backend turn
      let usage1 :=
        match resp.usage with
        | some u => usage.add u
        | Option.none => usage
      let st1 : LoopState := { st with items := st.items ++ resp.items }
      if resp.tool_calls.isEmpty then
        (LoopResult.success resp.text usage1, st1)
      else
        let st2 : LoopState :=
          { st1 with messages := st1.messages ++ resp.tool_call_messages }
        match execToolCalls tools resp.tool_calls st2 with
        | (some e, st3) => (LoopResult.executionFault e, st3)
        | (Option.none, st3) => runLoop tools backend (turn + 1) st3 usage1 fuel

/-- `Runner._run_nonstream_sync` against a scripted backend, starting
from the normalized initial conversation. -/
def runNonstreamSync (agent : AgentCfg) (backend : Backend)
    (initialMessages : List WireItem) : LoopResult × LoopState :=
  runLoop agent.tools backend 0 { messages := initialMessages, items := [] }
    newTokenUsage agent.max_iterations

/-! Concrete fixtures used by witnesses and counterexamples. -/

/-- A tool that always succeeds with the string `"ok"`. -/
def noopTool : Tool :=
  { name := "noop", func := some (fun _ => Except.ok (PyVal.str "ok")) }

/-- A tool whose own logic raises an exception with message
`"kaboom"`. -/
def boomTool : Tool :=
  { name := "boom", func := some (fun _ => Except.error "kaboom") }

/-- Scripted backend requiring exactly one tool-dispatch round before
its text-only turn `"done"`. -/
def c1Backend : Backend := fun k =>
  if k = 0 then
    { text := "",
      tool_calls := [{ call_id := "c1", name := "noop", arguments := PyVal.dict [] }] }
  else { text := "done", tool_calls := [] }

/-- Scripted backend whose first turn invokes the failing tool and
whose second turn is the text `"after"`. -/
def c2Backend : Backend := fun k =>
  if k = 0 then
    { text := "",
      tool_calls := [{ call_id := "c1", name := "boom", arguments := PyVal.dict [] }] }
  else { text := "after", tool_calls := [] }

/-! Helper machinery for reasoning about whole streamed turns. -/

def isMessageDeltaEvent : StreamEvent → Bool
  | StreamEvent.messageDelta _ _ => true
  | _ => false

def isToolDoneEvent : StreamEvent → Bool
  | StreamEvent.toolDone _ _ _ _ => true
  | _ => false

/-- The `response.output_item.added` chunk registering a streamed
function call. -/
def addedChunk (iid cid name : String) : Chunk :=
  Chunk.outputItemAdded
    (some { type := some "function_call", id := some iid, call_id := some cid, name := some name })

/-- Argument-fragment delta chunks, one per `(item id, fragment)`
pair. -/
def deltaChunks (ds : List (String × String)) : List Chunk :=
  ds.map (fun p => Chunk.argsDelta (some p.fst) (some p.snd))

/-- Concatenation of the fragments tagged with a given item id, in
stream order. -/
def fragsFor (iid : String) : List (String × String) → String
  | [] => ""
  | p :: rest => (if p.fst = iid then p.snd else "") ++ fragsFor iid rest

/-- Adapter state mid-turn with two registered tool-call items. -/
def twoToolState (i1 c1 n1 b1 i2 c2 n2 b2 : String) : AdapterState :=
  { tool_call_registry :=
      [(i1, { call_id := some c1, name := some n1, arguments_buffer := b1 }),
       (i2, { call_id := some c2, name := some n2, arguments_buffer := b2 })],
    stream_started := true, stream_end := false,
    turn_has_tool_calls := true, turn_text_done := false }

/-! Helper machinery for the per-turn text accumulation. -/

/-- The text contributed by a `message.output.delta` event (and `""`
for every other event). -/
def messageDeltaText : StreamEvent → String
  | StreamEvent.messageDelta _ delta =>
      match delta with
      | some (PyVal.str s) => s
      | some (PyVal.dict kvs) =>
          match dictGet kvs "text" with
          | some (PyVal.str s) => s
          | _ => ""
      | _ => ""
  | _ => ""

/-- Concatenation of a turn's message-delta fragments, in stream
order. -/
def concatDeltas : List StreamEvent → String
  | [] => ""
  | e :: rest => messageDeltaText e ++ concatDeltas rest

def isMessageDoneEvent : StreamEvent → Bool
  | StreamEvent.messageDone _ _ => true
  | _ => false

/-! ## Theorems -/

lemma addOpt_isSome (a b : Option Int) :
    (TokenUsage.addOpt a b).isSome = true ↔ a.isSome = true ∨ b.isSome = true := by
  cases a <;> cases b <;> simp [TokenUsage.addOpt]

/-- **C3**: for every pair of `TokenUsage` values, the combination's
resolved total is the sum of the operands' resolved totals (reported
total when present, else the sum of present buckets), and each optional
bucket is present in the combination exactly when it is present in at
least one operand (absent in both operands leaves it absent). -/
theorem tokenUsage_add_resolved_total_and_bucket_presence (a b : TokenUsage) :
    (a.add b).resolved_total_tokens
        = a.resolved_total_tokens + b.resolved_total_tokens
    ∧ ((a.add b).cached_read_tokens.isSome = true
        ↔ a.cached_read_tokens.isSome = true ∨ b.cached_read_tokens.isSome = true)
    ∧ ((a.add b).cached_write_tokens.isSome = true
        ↔ a.cached_write_tokens.isSome = true ∨ b.cached_write_tokens.isSome = true)
    ∧ ((a.add b).reasoning_tokens.isSome = true
        ↔ a.reasoning_tokens.isSome = true ∨ b.reasoning_tokens.isSome = true)
    ∧ ((a.add b).tool_use_tokens.isSome = true
        ↔ a.tool_use_tokens.isSome = true ∨ b.tool_use_tokens.isSome = true) :=
  ⟨rfl, addOpt_isSome _ _, addOpt_isSome _ _, addOpt_isSome _ _, addOpt_isSome _ _⟩

lemma validateBlocks_ok_iff (role : MessageRole) (bs : List CBlock) :
    validateBlocks role bs = Except.ok ()
      ↔ ∀ b ∈ bs, b.typeTag ∈ allowedByRole role := by
  induction bs with
  | nil => simp [validateBlocks]
  | cons b rest ih =>
      by_cases hb : b.typeTag ∈ allowedByRole role
      · simp [validateBlocks, hb, ih]
      · simp [validateBlocks, hb]

lemma validateBlocks_ok_or_error (role : MessageRole) (bs : List CBlock) :
    validateBlocks role bs = Except.ok ()
      ∨ ∃ e, validateBlocks role bs = Except.error e := by
  induction bs with
  | nil => exact Or.inl rfl
  | cons b rest ih =>
      by_cases hb : b.typeTag ∈ allowedByRole role
      · simpa [validateBlocks, hb] using ih
      · refine Or.inr ⟨"block type '" ++ b.typeTag ++ "' is not valid for role", ?_⟩
        simp [validateBlocks, hb]

/-- **C8**: constructing a message fails exactly when the content is
empty or some block's type is not permitted for the role (system:
text only; assistant: text, tool_call, reasoning; user: text,
tool_output); a successful construction keeps the content intact
(nothing is dropped); in particular a system message containing a
`tool_call` block always fails construction. -/
theorem promptMessage_construction_invariants :
    (∀ (role : MessageRole) (content : List CBlock),
      (∃ m, mkPromptMessage role content = Except.ok m)
        ↔ content ≠ [] ∧ ∀ b ∈ content, b.typeTag ∈ allowedByRole role)
    ∧ (∀ (role : MessageRole) (content : List CBlock) (m : PromptMessage),
        mkPromptMessage role content = Except.ok m →
          m.role = role ∧ m.content = content)
    ∧ (∀ (content : List CBlock) (cid n : String) (args : List (String × PyVal)),
        CBlock.tool_call cid n args ∈ content →
          ∃ e, mkPromptMessage MessageRole.system content = Except.error e) := by
  have hok : ∀ (role : MessageRole) (content : List CBlock),
      (∃ m, mkPromptMessage role content = Except.ok m)
        ↔ content ≠ [] ∧ ∀ b ∈ content, b.typeTag ∈ allowedByRole role := by
    intro role content
    constructor
    · rintro ⟨m, hm⟩
      unfold mkPromptMessage at hm
      by_cases hne : content.isEmpty
      · simp [hne] at hm
      · refine ⟨by simpa [List.isEmpty_iff] using hne, ?_⟩
        rcases validateBlocks_ok_or_error role content with hv | ⟨e, hv⟩
        · exact (validateBlocks_ok_iff role content).mp hv
        · simp [hne, hv] at hm
    · rintro ⟨hne, hall⟩
      have hv := (validateBlocks_ok_iff role content).mpr hall
      refine ⟨{ role := role, content := content }, ?_⟩
      unfold mkPromptMessage
      simp [List.isEmpty_iff, hne, hv]
  refine ⟨hok, ?_, ?_⟩
  · intro role content m hm
    unfold mkPromptMessage at hm
    by_cases hne : content.isEmpty
    · simp [hne] at hm
    · rcases validateBlocks_ok_or_error role content with hv | ⟨e, hv⟩
      · simp [hne, hv] at hm
        exact ⟨by rw [← hm], by rw [← hm]⟩
      · simp [hne, hv] at hm
  · intro content cid n args hmem
    have hbad : ¬ ∀ b ∈ content, b.typeTag ∈ allowedByRole MessageRole.system := by
      intro hall
      have := hall _ hmem
      simp [CBlock.typeTag, allowedByRole] at this
    have hnotok : ¬ ∃ m, mkPromptMessage MessageRole.system content = Except.ok m := by
      rw [hok]
      tauto
    cases hres : mkPromptMessage MessageRole.system content with
    | ok m => exact absurd ⟨m, hres⟩ hnotok
    | error e => exact ⟨e, rfl⟩

/-- Witness for C8 at a concrete input: a system message holding a
single `tool_call` block is rejected at construction. -/
theorem promptMessage_construction_invariants_witness :
    ∃ e, mkPromptMessage MessageRole.system [CBlock.tool_call "c1" "calc" []]
      = Except.error e :=
  promptMessage_construction_invariants.2.2 [CBlock.tool_call "c1" "calc" []]
    "c1" "calc" [] (by simp)

lemma serializeBlocks_error_of_mem (role : MessageRole) (bs : List CBlock)
    (b : CBlock) (hmem : b ∈ bs) (hbad : ∃ e0, serializeBlock role b = Except.error e0) :
    ∃ e, serializeBlocks role bs = Except.error e := by
  induction bs with
  | nil => cases hmem
  | cons hd rest ih =>
      cases hb : serializeBlock role hd with
      | error e0 => exact ⟨e0, by simp [serializeBlocks, hb]⟩
      | ok item =>
          rcases List.mem_cons.mp hmem with hEq | htail
          · rcases hbad with ⟨e0, he0⟩
            rw [hEq] at he0
            simp [hb] at he0
          · rcases ih htail with ⟨e, he⟩
            exact ⟨e, by simp [serializeBlocks, hb, he]⟩

lemma serializePrompt_error_of_mem (msgs : List PromptMessage) (m : PromptMessage)
    (hmem : m ∈ msgs) (hbad : ∃ e0, serializeBlocks m.role m.content = Except.error e0) :
    ∃ e, serializePrompt msgs = Except.error e := by
  induction msgs with
  | nil => cases hmem
  | cons hd rest ih =>
      cases hb : serializeBlocks hd.role hd.content with
      | error e0 => exact ⟨e0, by simp [serializePrompt, hb]⟩
      | ok items =>
          rcases List.mem_cons.mp hmem with hEq | htail
          · rcases hbad with ⟨e0, he0⟩
            rw [hEq] at he0
            simp [hb] at he0
          · rcases ih htail with ⟨e, he⟩
            exact ⟨e, by simp [serializePrompt, hb, he]⟩

/-- **C7**: a reasoning block carrying only a summary passes
construction (the pydantic validator needs just one of the four
optional fields), but any conversation containing such a block fails
OpenAI serialization with an `AgentSerializationError`, because the
OpenAI serializer demands both a truthy `reasoning_id` and a truthy
summary before replaying reasoning state. -/
theorem reasoningBlock_summary_only_construct_ok_serialize_fails
    (s : String) (msgs : List PromptMessage) (m : PromptMessage)
    (hmem : m ∈ msgs)
    (hblk : CBlock.reasoning (some s) Option.none Option.none Option.none ∈ m.content) :
    mkReasoningBlock (some s) Option.none Option.none Option.none
        = Except.ok (CBlock.reasoning (some s) Option.none Option.none Option.none)
    ∧ ∃ e, serializePrompt msgs = Except.error e := by
  refine ⟨by simp [mkReasoningBlock], ?_⟩
  refine serializePrompt_error_of_mem msgs m hmem ?_
  refine serializeBlocks_error_of_mem m.role m.content _ hblk ?_
  refine ⟨"OpenAI reasoning replay requires reasoning_id and summary", ?_⟩
  simp [serializeBlock, strFalsy]

/-- Witness for C7 at a concrete input: an assistant message holding
only a summary-only reasoning block constructs but does not
serialize. -/
theorem reasoningBlock_summary_only_witness :
    mkReasoningBlock (some "thinking") Option.none Option.none Option.none
        = Except.ok (CBlock.reasoning (some "thinking") Option.none Option.none Option.none)
    ∧ ∃ e,
        serializePrompt
          [{ role := MessageRole.assistant,
             content := [CBlock.reasoning (some "thinking") Option.none Option.none Option.none] }]
          = Except.error e :=
  reasoningBlock_summary_only_construct_ok_serialize_fails "thinking"
    [{ role := MessageRole.assistant,
       content := [CBlock.reasoning (some "thinking") Option.none Option.none Option.none] }]
    { role := MessageRole.assistant,
      content := [CBlock.reasoning (some "thinking") Option.none Option.none Option.none] }
    (by simp) (by simp)

lemma isEmpty_false_of_ne (s : String) (h : s ≠ "") : s.isEmpty = false := by
  cases hs : s.isEmpty
  · rfl
  · exact absurd ((String.isEmpty_iff s).mp hs) h

lemma regLookup_regInsert_self (r : Registry) (k : String) (e : RegEntry) :
    regLookup (regInsert r k e) k = some e := by
  induction r with
  | nil => simp [regInsert, regLookup, List.find?]
  | cons kv rest ih =>
      by_cases hk : kv.fst = k
      · simp [regInsert, regLookup, List.find?, hk]
      · have hk' : (kv.fst == k) = false := by simpa using hk
        simp only [regInsert, hk', if_false]
        simpa [regLookup, List.find?, hk'] using ih

/-- **C9**: on an argument-delta chunk, an item id never registered in
the current turn degrades to a neutral `other.event` (the stream is not
failed), while a registered id has the fragment appended to its buffer
and produces a typed `tool.delta` event carrying the registered call
id, name, and the fragment. -/
theorem argsDelta_unregistered_neutral_registered_typed :
    (∀ (st : AdapterState) (iid : String) (delta : Option String),
      iid ≠ "" →
      regLookup st.tool_call_registry iid = Option.none →
      processChunk st (Chunk.argsDelta (some iid) delta)
        = ({ st with turn_has_tool_calls := true },
           some (StreamEvent.otherEvent Option.none Option.none)))
    ∧ (∀ (st : AdapterState) (iid : String) (delta : Option String)
        (meta : RegEntry) (c n : String),
        iid ≠ "" →
        regLookup st.tool_call_registry iid = some meta →
        meta.call_id = some c → c ≠ "" →
        meta.name = some n → n ≠ "" →
        (processChunk st (Chunk.argsDelta (some iid) delta)).snd
            = some (StreamEvent.toolDelta (some iid) (some n) (some c)
                (some (PyVal.str (delta.getD ""))))
        ∧ regLookup (processChunk st (Chunk.argsDelta (some iid) delta)).fst.tool_call_registry
              iid
            = some { meta with
                arguments_buffer := meta.arguments_buffer ++ delta.getD "" }) := by
  constructor
  · intro st iid delta hne hlook
    simp [processChunk, strFalsy, isEmpty_false_of_ne iid hne, hlook]
  · intro st iid delta meta c n hne hlook hc hcne hn hnne
    have hie := isEmpty_false_of_ne iid hne
    have hce := isEmpty_false_of_ne c hcne
    have hnn := isEmpty_false_of_ne n hnne
    constructor
    · simp [processChunk, strFalsy, hie, hlook, hc, hn, hce, hnn]
    · simp only [processChunk, strFalsy, hie, Bool.false_eq_true, if_false,
        Option.getD_some, hlook, hc, hn, hce, hnn, Bool.or_self]
      exact regLookup_regInsert_self _ _ _

/-- Witness for C9 at concrete inputs: an unregistered id yields a
neutral event, a registered one a typed `tool.delta` and an extended
buffer. -/
theorem argsDelta_unregistered_neutral_registered_typed_witness :
    (processChunk initAdapterState (Chunk.argsDelta (some "item9") (some "frag"))
      = ({ initAdapterState with turn_has_tool_calls := true },
         some (StreamEvent.otherEvent Option.none Option.none)))
    ∧ ((processChunk
          { initAdapterState with
            tool_call_registry :=
              [("item9", { call_id := some "call9", name := some "adder",
                           arguments_buffer := "prev" })] }
          (Chunk.argsDelta (some "item9") (some "frag"))).snd
        = some (StreamEvent.toolDelta (some "item9") (some "adder") (some "call9")
            (some (PyVal.str "frag")))) := by
  constructor
  · exact argsDelta_unregistered_neutral_registered_typed.1 initAdapterState "item9"
      (some "frag") (by decide) (by rfl)
  · exact (argsDelta_unregistered_neutral_registered_typed.2
      { initAdapterState with
        tool_call_registry :=
          [("item9", { call_id := some "call9", name := some "adder",
                       arguments_buffer := "prev" })] }
      "item9" (some "frag")
      { call_id := some "call9", name := some "adder", arguments_buffer := "prev" }
      "call9" "adder" (by decide) (by rfl) rfl (by decide) rfl (by decide)).1

lemma extractStreamToolCall_normalized (iid : Option String) (c n raw : String)
    (hc : c ≠ "") (hn : n ≠ "") :
    extractStreamToolCall
        (StreamEvent.toolDone iid (some n) (some c)
          (some (normalizeArguments (PyVal.str raw))))
      = some { call_id := c, name := n, arguments := normalizeArguments (PyVal.str raw) } := by
  have hce := isEmpty_false_of_ne c hc
  have hne := isEmpty_false_of_ne n hn
  cases hp : parseJson raw with
  | none => simp [extractStreamToolCall, normalizeArguments, strFalsy, hce, hne, hp]
  | some v =>
      cases v <;>
        simp [extractStreamToolCall, normalizeArguments, strFalsy, hce, hne, hp]

/-- **C10**: finalization is not idempotent: an `argument done` chunk
for a registered item leaves the registry entry untouched (it survives
until the next `response.created` turn-start signal, which clears the
registry), so a duplicated done chunk produces a second identical
`tool.done` event, and the runner's extraction turns each of the two
events into a tool call to execute. -/
theorem argsDone_duplicate_yields_second_toolDone
    (st : AdapterState) (iid : String) (args : Option String)
    (meta : RegEntry) (c n : String) (rid : Option String)
    (hiid : iid ≠ "")
    (hlook : regLookup st.tool_call_registry iid = some meta)
    (hc : meta.call_id = some c) (hcne : c ≠ "")
    (hn : meta.name = some n) (hnne : n ≠ "") :
    processStreamFrom st [Chunk.argsDone (some iid) args, Chunk.argsDone (some iid) args]
        = ({ st with turn_has_tool_calls := true },
           [StreamEvent.toolDone (some iid) (some n) (some c)
              (some (normalizeArguments (PyVal.str (args.getD meta.arguments_buffer)))),
            StreamEvent.toolDone (some iid) (some n) (some c)
              (some (normalizeArguments (PyVal.str (args.getD meta.arguments_buffer))))])
    ∧ collectStreamToolCalls
          [StreamEvent.toolDone (some iid) (some n) (some c)
              (some (normalizeArguments (PyVal.str (args.getD meta.arguments_buffer)))),
           StreamEvent.toolDone (some iid) (some n) (some c)
              (some (normalizeArguments (PyVal.str (args.getD meta.arguments_buffer))))]
        = [{ call_id := c, name := n,
             arguments := normalizeArguments (PyVal.str (args.getD meta.arguments_buffer)) },
           { call_id := c, name := n,
             arguments := normalizeArguments (PyVal.str (args.getD meta.arguments_buffer)) }]
    ∧ (processChunk st (Chunk.responseCreated rid)).fst.tool_call_registry = [] := by
  have hie := isEmpty_false_of_ne iid hiid
  have hce := isEmpty_false_of_ne c hcne
  have hnn := isEmpty_false_of_ne n hnne
  have hstep :
      processChunk st (Chunk.argsDone (some iid) args)
        = ({ st with turn_has_tool_calls := true },
           some (StreamEvent.toolDone (some iid) (some n) (some c)
              (some (normalizeArguments (PyVal.str (args.getD meta.arguments_buffer)))))) := by
    cases args with
    | none => simp [processChunk, strFalsy, hie, hlook, hc, hn, hce, hnn]
    | some a => simp [processChunk, strFalsy, hie, hlook, hc, hn, hce, hnn]
  have hstep2 :
      processChunk { st with turn_has_tool_calls := true }
          (Chunk.argsDone (some iid) args)
        = ({ st with turn_has_tool_calls := true },
           some (StreamEvent.toolDone (some iid) (some n) (some c)
              (some (normalizeArguments (PyVal.str (args.getD meta.arguments_buffer)))))) := by
    cases args with
    | none => simp [processChunk, strFalsy, hie, hlook, hc, hn, hce, hnn]
    | some a => simp [processChunk, strFalsy, hie, hlook, hc, hn, hce, hnn]
  refine ⟨?_, ?_, ?_⟩
  · simp [processStreamFrom, hstep, hstep2]
  · simp [collectStreamToolCalls, List.filterMap,
      extractStreamToolCall_normalized Option.none c n
        (args.getD meta.arguments_buffer) hcne hnne,
      extractStreamToolCall_normalized (some iid) c n
        (args.getD meta.arguments_buffer) hcne hnne]
  · cases h : st.stream_started <;> simp [processChunk, h]

/-- Witness for C10 at concrete inputs. -/
theorem argsDone_duplicate_yields_second_toolDone_witness :
    processStreamFrom
        { initAdapterState with
          tool_call_registry :=
            [("item1", { call_id := some "call1", name := some "adder",
                         arguments_buffer := "\x7b\"a\": 1\x7d" })] }
        [Chunk.argsDone (some "item1") Option.none,
         Chunk.argsDone (some "item1") Option.none]
      = ({ initAdapterState with
            tool_call_registry :=
              [("item1", { call_id := some "call1", name := some "adder",
                           arguments_buffer := "\x7b\"a\": 1\x7d" })],
            turn_has_tool_calls := true },
         [StreamEvent.toolDone (some "item1") (some "adder") (some "call1")
            (some (normalizeArguments (PyVal.str "\x7b\"a\": 1\x7d"))),
          StreamEvent.toolDone (some "item1") (some "adder") (some "call1")
            (some (normalizeArguments (PyVal.str "\x7b\"a\": 1\x7d")))]) :=
  (argsDone_duplicate_yields_second_toolDone
    { initAdapterState with
      tool_call_registry :=
        [("item1", { call_id := some "call1", name := some "adder",
                     arguments_buffer := "\x7b\"a\": 1\x7d" })] }
    "item1" Option.none
    { call_id := some "call1", name := some "adder", arguments_buffer := "\x7b\"a\": 1\x7d" }
    "call1" "adder" Option.none (by decide) (by rfl) rfl (by decide) rfl (by decide)).1

lemma processStreamFrom_append (st : AdapterState) (l1 l2 : List Chunk) :
    processStreamFrom st (l1 ++ l2)
      = ((processStreamFrom (processStreamFrom st l1).fst l2).fst,
         (processStreamFrom st l1).snd
           ++ (processStreamFrom (processStreamFrom st l1).fst l2).snd) := by
  induction l1 generalizing st with
  | nil => simp [processStreamFrom]
  | cons c rest ih =>
      simp only [List.cons_append, processStreamFrom, List.append_eq]
      rw [ih]
      cases (processChunk st c).snd <;> simp

lemma filter_map_const_false {α β : Type} (f : α → β) (p : β → Bool)
    (h : ∀ a, p (f a) = false) (l : List α) : (l.map f).filter p = [] := by
  induction l with
  | nil => rfl
  | cons a rest ih => simp [h, ih]

/-- Processing a run of argument deltas tagged with the two registered
item ids appends every fragment to the matching buffer and emits one
typed `tool.delta` event per fragment. -/
lemma processStreamFrom_deltaChunks (i1 i2 c1 n1 c2 n2 : String)
    (hi12 : i1 ≠ i2) (hi1 : i1 ≠ "") (hi2 : i2 ≠ "")
    (hc1 : c1 ≠ "") (hn1 : n1 ≠ "") (hc2 : c2 ≠ "") (hn2 : n2 ≠ "") :
    ∀ (ds : List (String × String)) (b1 b2 : String),
      (∀ p ∈ ds, p.fst = i1 ∨ p.fst = i2) →
      processStreamFrom (twoToolState i1 c1 n1 b1 i2 c2 n2 b2) (deltaChunks ds)
        = (twoToolState i1 c1 n1 (b1 ++ fragsFor i1 ds) i2 c2 n2 (b2 ++ fragsFor i2 ds),
           ds.map (fun p => StreamEvent.toolDelta (some p.fst)
             (some (if p.fst = i1 then n1 else n2))
             (some (if p.fst = i1 then c1 else c2))
             (some (PyVal.str p.snd)))) := by
  intro ds
  induction ds with
  | nil =>
      intro b1 b2 _
      simp [deltaChunks, processStreamFrom, fragsFor]
  | cons p rest ih =>
      intro b1 b2 hall
      obtain ⟨t, f⟩ := p
      rcases hall (t, f) (List.mem_cons_self _ _) with ht | ht
      · subst ht
        have hstep :
            processChunk (twoToolState t c1 n1 b1 i2 c2 n2 b2)
                (Chunk.argsDelta (some t) (some f))
              = (twoToolState t c1 n1 (b1 ++ f) i2 c2 n2 b2,
                 some (StreamEvent.toolDelta (some t) (some n1) (some c1)
                   (some (PyVal.str f)))) := by
          simp [processChunk, strFalsy, isEmpty_false_of_ne t hi1, twoToolState,
            regLookup, List.find?, regInsert, isEmpty_false_of_ne c1 hc1,
            isEmpty_false_of_ne n1 hn1]
        simp only [deltaChunks] at ih
        simp only [deltaChunks, List.map_cons, processStreamFrom, hstep]
        rw [ih (b1 ++ f) b2 (fun q hq => hall q (List.mem_cons_of_mem _ hq))]
        simp [fragsFor, String.append_assoc, hi12]
      · subst ht
        have hstep :
            processChunk (twoToolState i1 c1 n1 b1 t c2 n2 b2)
                (Chunk.argsDelta (some t) (some f))
              = (twoToolState i1 c1 n1 b1 t c2 n2 (b2 ++ f),
                 some (StreamEvent.toolDelta (some t) (some n2) (some c2)
                   (some (PyVal.str f)))) := by
          have hne : (i1 == t) = false := by simpa using hi12
          simp [processChunk, strFalsy, isEmpty_false_of_ne t hi2, twoToolState,
            regLookup, List.find?, regInsert, hne, isEmpty_false_of_ne c2 hc2,
            isEmpty_false_of_ne n2 hn2]
        have ht1 : t ≠ i1 := fun h => hi12 h.symm
        simp only [deltaChunks] at ih
        simp only [deltaChunks, List.map_cons, processStreamFrom, hstep]
        rw [ih b1 (b2 ++ f) (fun q hq => hall q (List.mem_cons_of_mem _ hq))]
        simp [fragsFor, String.append_assoc, ht1]

/-- **C4**: a streamed turn that registers two distinct tool-call item
ids, carries argument-fragment deltas only for those ids and no text
deltas, and finalizes each id with a done chunk carrying no overriding
payload, yields zero `message.output.delta` events and exactly two
`tool.call.done` events, each with the registered call id and name and
with arguments equal to the JSON-parsed concatenation of that id's
fragments (given that each concatenation parses as a JSON object). -/
theorem twoToolCall_stream_turn (rid rid2 : Option String) (usage : Option UsagePayload)
    (i1 i2 c1 n1 c2 n2 : String) (ds : List (String × String))
    (kv1 kv2 : List (String × PyVal))
    (hi1 : i1 ≠ "") (hi2 : i2 ≠ "") (hi12 : i1 ≠ i2)
    (hc1 : c1 ≠ "") (hn1 : n1 ≠ "") (hc2 : c2 ≠ "") (hn2 : n2 ≠ "")
    (hds : ∀ p ∈ ds, p.fst = i1 ∨ p.fst = i2)
    (hp1 : parseJson (fragsFor i1 ds) = some (PyVal.dict kv1))
    (hp2 : parseJson (fragsFor i2 ds) = some (PyVal.dict kv2)) :
    (processStream (Chunk.responseCreated rid :: addedChunk i1 c1 n1 ::
        addedChunk i2 c2 n2 :: (deltaChunks ds ++
          [Chunk.argsDone (some i1) Option.none, Chunk.argsDone (some i2) Option.none,
           Chunk.responseCompleted rid2 usage]))).snd.filter isMessageDeltaEvent = []
    ∧ (processStream (Chunk.responseCreated rid :: addedChunk i1 c1 n1 ::
        addedChunk i2 c2 n2 :: (deltaChunks ds ++
          [Chunk.argsDone (some i1) Option.none, Chunk.argsDone (some i2) Option.none,
           Chunk.responseCompleted rid2 usage]))).snd.filter isToolDoneEvent
      = [StreamEvent.toolDone (some i1) (some n1) (some c1) (some (PyVal.dict kv1)),
         StreamEvent.toolDone (some i2) (some n2) (some c2) (some (PyVal.dict kv2))] := by
  have hpre :
      processStreamFrom initAdapterState
          [Chunk.responseCreated rid, addedChunk i1 c1 n1, addedChunk i2 c2 n2]
        = (twoToolState i1 c1 n1 "" i2 c2 n2 "",
           [StreamEvent.streamStart rid Option.none]) := by
    have hne : (i1 == i2) = false := by simpa using hi12
    simp [processStreamFrom, processChunk, addedChunk, initAdapterState,
      registerToolCallFromOutputItem, regInsert, twoToolState, chunkTokenUsage,
      isEmpty_false_of_ne i1 hi1, isEmpty_false_of_ne i2 hi2, hne]
  have hdeltas := processStreamFrom_deltaChunks i1 i2 c1 n1 c2 n2 hi12 hi1 hi2
    hc1 hn1 hc2 hn2 ds "" "" hds
  simp only [String.empty_append] at hdeltas
  have hdone1 :
      processChunk (twoToolState i1 c1 n1 (fragsFor i1 ds) i2 c2 n2 (fragsFor i2 ds))
          (Chunk.argsDone (some i1) Option.none)
        = (twoToolState i1 c1 n1 (fragsFor i1 ds) i2 c2 n2 (fragsFor i2 ds),
           some (StreamEvent.toolDone (some i1) (some n1) (some c1)
             (some (PyVal.dict kv1)))) := by
    simp [processChunk, strFalsy, isEmpty_false_of_ne i1 hi1, twoToolState,
      regLookup, List.find?, normalizeArguments, hp1,
      isEmpty_false_of_ne c1 hc1, isEmpty_false_of_ne n1 hn1]
  have hdone2 :
      processChunk (twoToolState i1 c1 n1 (fragsFor i1 ds) i2 c2 n2 (fragsFor i2 ds))
          (Chunk.argsDone (some i2) Option.none)
        = (twoToolState i1 c1 n1 (fragsFor i1 ds) i2 c2 n2 (fragsFor i2 ds),
           some (StreamEvent.toolDone (some i2) (some n2) (some c2)
             (some (PyVal.dict kv2)))) := by
    have hne : (i1 == i2) = false := by simpa using hi12
    simp [processChunk, strFalsy, isEmpty_false_of_ne i2 hi2, twoToolState,
      regLookup, List.find?, hne, normalizeArguments, hp2,
      isEmpty_false_of_ne c2 hc2, isEmpty_false_of_ne n2 hn2]
  have hcompleted :
      processChunk (twoToolState i1 c1 n1 (fragsFor i1 ds) i2 c2 n2 (fragsFor i2 ds))
          (Chunk.responseCompleted rid2 usage)
        = (twoToolState i1 c1 n1 (fragsFor i1 ds) i2 c2 n2 (fragsFor i2 ds),
           some (StreamEvent.otherEvent rid2
             (chunkTokenUsage (Chunk.responseCompleted rid2 usage)))) := by
    simp [processChunk, twoToolState]
  have hsuffix :
      processStreamFrom
          (twoToolState i1 c1 n1 (fragsFor i1 ds) i2 c2 n2 (fragsFor i2 ds))
          [Chunk.argsDone (some i1) Option.none, Chunk.argsDone (some i2) Option.none,
           Chunk.responseCompleted rid2 usage]
        = (twoToolState i1 c1 n1 (fragsFor i1 ds) i2 c2 n2 (fragsFor i2 ds),
           [StreamEvent.toolDone (some i1) (some n1) (some c1) (some (PyVal.dict kv1)),
            StreamEvent.toolDone (some i2) (some n2) (some c2) (some (PyVal.dict kv2)),
            StreamEvent.otherEvent rid2
              (chunkTokenUsage (Chunk.responseCompleted rid2 usage))]) := by
    simp only [processStreamFrom, hdone1, hdone2, hcompleted]
  have hfull :
      (processStream (Chunk.responseCreated rid :: addedChunk i1 c1 n1 ::
          addedChunk i2 c2 n2 :: (deltaChunks ds ++
            [Chunk.argsDone (some i1) Option.none, Chunk.argsDone (some i2) Option.none,
             Chunk.responseCompleted rid2 usage]))).snd
        = [StreamEvent.streamStart rid Option.none]
            ++ ds.map (fun p => StreamEvent.toolDelta (some p.fst)
                 (some (if p.fst = i1 then n1 else n2))
                 (some (if p.fst = i1 then c1 else c2))
                 (some (PyVal.str p.snd)))
            ++ [StreamEvent.toolDone (some i1) (some n1) (some c1) (some (PyVal.dict kv1)),
                StreamEvent.toolDone (some i2) (some n2) (some c2) (some (PyVal.dict kv2)),
                StreamEvent.otherEvent rid2
                  (chunkTokenUsage (Chunk.responseCompleted rid2 usage))] := by
    have hsplit :
        Chunk.responseCreated rid :: addedChunk i1 c1 n1 ::
            addedChunk i2 c2 n2 :: (deltaChunks ds ++
              [Chunk.argsDone (some i1) Option.none, Chunk.argsDone (some i2) Option.none,
               Chunk.responseCompleted rid2 usage])
          = ([Chunk.responseCreated rid, addedChunk i1 c1 n1, addedChunk i2 c2 n2]
              ++ deltaChunks ds)
            ++ [Chunk.argsDone (some i1) Option.none, Chunk.argsDone (some i2) Option.none,
                Chunk.responseCompleted rid2 usage] := by
      simp
    rw [show processStream (Chunk.responseCreated rid :: addedChunk i1 c1 n1 ::
        addedChunk i2 c2 n2 :: (deltaChunks ds ++
          [Chunk.argsDone (some i1) Option.none, Chunk.argsDone (some i2) Option.none,
           Chunk.responseCompleted rid2 usage]))
      = processStreamFrom initAdapterState (([Chunk.responseCreated rid,
          addedChunk i1 c1 n1, addedChunk i2 c2 n2] ++ deltaChunks ds)
            ++ [Chunk.argsDone (some i1) Option.none, Chunk.argsDone (some i2) Option.none,
                Chunk.responseCompleted rid2 usage]) from by rw [processStream, hsplit]]
    rw [processStreamFrom_append, processStreamFrom_append, hpre]
    simp only [hdeltas]
    rw [hsuffix]
  constructor
  · rw [hfull]
    simp only [List.filter_append]
    rw [filter_map_const_false
      (fun p : String × String => StreamEvent.toolDelta (some p.fst)
        (some (if p.fst = i1 then n1 else n2)) (some (if p.fst = i1 then c1 else c2))
        (some (PyVal.str p.snd)))
      isMessageDeltaEvent (fun p => rfl) ds]
    simp [isMessageDeltaEvent]
  · rw [hfull]
    simp only [List.filter_append]
    rw [filter_map_const_false
      (fun p : String × String => StreamEvent.toolDelta (some p.fst)
        (some (if p.fst = i1 then n1 else n2)) (some (if p.fst = i1 then c1 else c2))
        (some (PyVal.str p.snd)))
      isToolDoneEvent (fun p => rfl) ds]
    simp [isToolDoneEvent]

/-- Witness for C4 at a concrete interleaved turn: two items whose
fragments concatenate to `{"a": 1}` and `{"b": 2}`. -/
theorem twoToolCall_stream_turn_witness :
    (processStream (Chunk.responseCreated (some "resp") ::
        addedChunk "item1" "call1" "adder" :: addedChunk "item2" "call2" "muler" ::
        (deltaChunks [("item1", "\x7b\"a\""), ("item2", "\x7b\"b\""), ("item1", ": 1\x7d"),
           ("item2", ": 2\x7d")] ++
          [Chunk.argsDone (some "item1") Option.none,
           Chunk.argsDone (some "item2") Option.none,
           Chunk.responseCompleted (some "resp") Option.none]))).snd.filter
        isMessageDeltaEvent = []
    ∧ (processStream (Chunk.responseCreated (some "resp") ::
        addedChunk "item1" "call1" "adder" :: addedChunk "item2" "call2" "muler" ::
        (deltaChunks [("item1", "\x7b\"a\""), ("item2", "\x7b\"b\""), ("item1", ": 1\x7d"),
           ("item2", ": 2\x7d")] ++
          [Chunk.argsDone (some "item1") Option.none,
           Chunk.argsDone (some "item2") Option.none,
           Chunk.responseCompleted (some "resp") Option.none]))).snd.filter
        isToolDoneEvent
      = [StreamEvent.toolDone (some "item1") (some "adder") (some "call1")
           (some (PyVal.dict [("a", PyVal.int 1)])),
         StreamEvent.toolDone (some "item2") (some "muler") (some "call2")
           (some (PyVal.dict [("b", PyVal.int 2)]))] :=
  twoToolCall_stream_turn (some "resp") (some "resp") Option.none
    "item1" "item2" "call1" "adder" "call2" "muler"
    [("item1", "\x7b\"a\""), ("item2", "\x7b\"b\""), ("item1", ": 1\x7d"), ("item2", ": 2\x7d")]
    [("a", PyVal.int 1)] [("b", PyVal.int 2)]
    (by decide) (by decide) (by decide) (by decide) (by decide) (by decide) (by decide)
    (by decide) (by rfl) (by rfl)

lemma concatDeltas_append (xs ys : List StreamEvent) :
    concatDeltas (xs ++ ys) = concatDeltas xs ++ concatDeltas ys := by
  induction xs with
  | nil => simp [concatDeltas]
  | cons e rest ih => simp [concatDeltas, ih, String.append_assoc]

lemma streamTextFragment_of_not_done (e : StreamEvent) (b : Bool)
    (h : isMessageDoneEvent e = false) : streamTextFragment e b = messageDeltaText e := by
  cases e <;> simp_all [streamTextFragment, messageDeltaText, isMessageDoneEvent]

lemma streamTextFragment_false (e : StreamEvent) :
    streamTextFragment e false = messageDeltaText e := by
  cases e <;> simp [streamTextFragment, messageDeltaText]

lemma append_ne_empty_left (a b : String) (h : a ≠ "") : a ++ b ≠ "" := by
  intro hab
  apply h
  have hd := congrArg String.data hab
  simp [String.data_append] at hd
  ext1
  simp [hd.1]

lemma foldl_accumStep_no_done (xs : List StreamEvent) :
    ∀ acc : String, (∀ e ∈ xs, isMessageDoneEvent e = false) →
      xs.foldl accumStep acc = acc ++ concatDeltas xs := by
  induction xs with
  | nil => intro acc _; simp [concatDeltas]
  | cons e rest ih =>
      intro acc hall
      have he : isMessageDoneEvent e = false := hall e (List.mem_cons_self _ _)
      have hstep : accumStep acc e = acc ++ messageDeltaText e := by
        simp [accumStep, streamTextFragment_of_not_done e _ he]
      simp only [List.foldl_cons, hstep,
        ih (acc ++ messageDeltaText e) (fun x hx => hall x (List.mem_cons_of_mem _ hx)),
        concatDeltas, String.append_assoc]

lemma foldl_accumStep_nonempty (ys : List StreamEvent) :
    ∀ acc : String, acc ≠ "" → ys.foldl accumStep acc = acc ++ concatDeltas ys := by
  induction ys with
  | nil => intro acc _; simp [concatDeltas]
  | cons e rest ih =>
      intro acc hacc
      have hie : acc.isEmpty = false := isEmpty_false_of_ne acc hacc
      have hstep : accumStep acc e = acc ++ messageDeltaText e := by
        simp [accumStep, hie, streamTextFragment_false]
      simp only [List.foldl_cons, hstep,
        ih (acc ++ messageDeltaText e) (append_ne_empty_left acc _ hacc),
        concatDeltas, String.append_assoc]

/-- **C6**: in a streaming run the turn text is accumulated as the
concatenation of the turn's message-delta fragments whenever delta text
appears before any done event (formally: for any prefix of non-done
events contributing nonempty delta text), a done event's text
contributes nothing once the accumulator is nonempty, and a turn
emitting a delta and then a done event with the same text accumulates
that text exactly once. -/
theorem stream_turn_text_accumulation :
    (∀ (xs ys : List StreamEvent),
      (∀ e ∈ xs, isMessageDoneEvent e = false) →
      concatDeltas xs ≠ "" →
      accumTurnText (xs ++ ys) = concatDeltas (xs ++ ys))
    ∧ (∀ (e : StreamEvent) (acc : String),
        isMessageDoneEvent e = true → acc ≠ "" → accumStep acc e = acc)
    ∧ (∀ (id1 id2 : Option String) (t : String),
        accumTurnText [StreamEvent.messageDelta id1 (some (PyVal.str t)),
          StreamEvent.messageDone id2 (some (PyVal.str t))] = t) := by
  refine ⟨?_, ?_, ?_⟩
  · intro xs ys hnodone hne
    unfold accumTurnText
    rw [List.foldl_append, foldl_accumStep_no_done xs "" hnodone, String.empty_append,
      foldl_accumStep_nonempty ys (concatDeltas xs) hne, concatDeltas_append]
  · intro e acc hdone hacc
    have hie : acc.isEmpty = false := isEmpty_false_of_ne acc hacc
    cases e <;> simp_all [accumStep, streamTextFragment, isMessageDoneEvent]
  · intro id1 id2 t
    by_cases ht : t = ""
    · subst ht
      simp [accumTurnText, accumStep, streamTextFragment]
    · have hie : t.isEmpty = false := isEmpty_false_of_ne t ht
      simp [accumTurnText, accumStep, streamTextFragment, hie]

/-- Witness for C6 at concrete inputs: a delta `"hel"` and a delta
`"lo"` followed by a done carrying `"hello"` accumulate `"hello"`
exactly once. -/
theorem stream_turn_text_accumulation_witness :
    accumTurnText [StreamEvent.messageDelta (some "m1") (some (PyVal.str "hel")),
        StreamEvent.messageDelta (some "m1") (some (PyVal.str "lo")),
        StreamEvent.messageDone (some "m1") (some (PyVal.str "hello"))]
      = "hello" := by
  have h := stream_turn_text_accumulation.1
    [StreamEvent.messageDelta (some "m1") (some (PyVal.str "hel")),
     StreamEvent.messageDelta (some "m1") (some (PyVal.str "lo"))]
    [StreamEvent.messageDone (some "m1") (some (PyVal.str "hello"))]
    (by intro e he; fin_cases he <;> rfl) (by decide)
  simpa [concatDeltas, messageDeltaText] using h

/-! Helper lemmas about tool dispatch and the loop. -/

lemma validateAndPrepareTool_error_shape (tools : Option (List Tool)) (tool_name : String)
    (tool_args : PyVal) (f : ToolFault)
    (h : validateAndPrepareTool tools tool_name tool_args = Except.error f) :
    ∃ m, f = ToolFault.toolCallFault m := by
  unfold validateAndPrepareTool at h
  split at h
  · injection h with h1
    exact ⟨_, h1.symm⟩
  · split at h <;>
      first
        | (injection h with h1; exact ⟨_, h1.symm⟩)
        | simp at h
        | (split at h <;>
            first
              | (injection h with h1; exact ⟨_, h1.symm⟩)
              | simp at h)

lemma validateInput_error_shape (t : Tool) (args : List (String × PyVal)) (f : ToolFault)
    (h : t.validateInput args = Except.error f) : ∃ m, f = ToolFault.toolCallFault m := by
  unfold Tool.validateInput at h
  split at h
  · simp at h
  · split at h
    · simp at h
    · injection h with h1
      exact ⟨_, h1.symm⟩

lemma validateOutput_error_shape (t : Tool) (output : PyVal) (f : ToolFault)
    (h : t.validateOutput output = Except.error f) :
    ∃ m, f = ToolFault.toolExecutionFault m := by
  unfold Tool.validateOutput at h
  split at h
  · simp at h
  · split at h
    · simp at h
    · injection h with h1
      exact ⟨_, h1.symm⟩

lemma toolRun_error_shape (t : Tool) (args : List (String × PyVal)) (f : ToolFault)
    (h : t.run args = Except.error f) :
    (∃ m, f = ToolFault.toolCallFault m) ∨ (∃ m, f = ToolFault.toolExecutionFault m) := by
  cases hfunc : t.func with
  | none =>
      simp only [Tool.run, hfunc] at h
      injection h with h1
      exact Or.inr ⟨_, h1.symm⟩
  | some f0 =>
      simp only [Tool.run, hfunc] at h
      cases hv : t.validateInput args with
      | error e =>
          simp only [hv] at h
          injection h with h1
          obtain ⟨m, hm⟩ := validateInput_error_shape t args e hv
          exact Or.inl ⟨m, by rw [← h1, hm]⟩
      | ok validated =>
          simp only [hv] at h
          cases hf : f0 validated with
          | error emsg =>
              simp only [hf] at h
              injection h with h1
              exact Or.inr ⟨_, h1.symm⟩
          | ok result =>
              simp only [hf] at h
              exact Or.inr (validateOutput_error_shape t result f h)

/-- The embedded dispatch path never reaches the fatal
`AgentExecutionError` re-raise: every fault it produces is in the
caught `AgentToolCallError`/`AgentToolExecutionError` taxonomy. -/
lemma runTool_never_fatal (tools : Option (List Tool)) (tool_name : String)
    (tool_args : PyVal) : ∃ out, runTool tools tool_name tool_args = Except.ok out := by
  cases hv : validateAndPrepareTool tools tool_name tool_args with
  | error e =>
      obtain ⟨m, rfl⟩ := validateAndPrepareTool_error_shape tools tool_name tool_args e hv
      refine ⟨"Error executing tool '" ++ tool_name ++ "': " ++ m, ?_⟩
      simp [runTool, hv]
  | ok p =>
      obtain ⟨tool, validated⟩ := p
      cases hr : tool.run validated with
      | ok result =>
          refine ⟨pyStr result, ?_⟩
          simp [runTool, hv, hr]
      | error f =>
          rcases toolRun_error_shape tool validated f hr with ⟨m, rfl⟩ | ⟨m, rfl⟩ <;>
            (refine ⟨"Error executing tool '" ++ tool_name ++ "': " ++ m, ?_⟩ ;
              simp [runTool, hv, hr])

lemma execToolCalls_no_fatal (tools : Option (List Tool)) :
    ∀ (tcs : List ToolCall) (st : LoopState),
      (execToolCalls tools tcs st).fst = Option.none := by
  intro tcs
  induction tcs with
  | nil => intro st; rfl
  | cons tc rest ih =>
      intro st
      obtain ⟨out, hout⟩ := runTool_never_fatal tools tc.name tc.arguments
      simp [execToolCalls, hout, ih]

lemma execToolCalls_eq (tools : Option (List Tool)) (tcs : List ToolCall) (st : LoopState) :
    execToolCalls tools tcs st = (Option.none, (execToolCalls tools tcs st).snd) := by
  cases hpair : execToolCalls tools tcs st with
  | mk a b =>
      have := execToolCalls_no_fatal tools tcs st
      rw [hpair] at this
      simp at this
      rw [this]

/-- Unfolding one loop pass whose turn requests tool calls. -/
lemma runLoop_succ_tool_branch (tools : Option (List Tool)) (backend : Backend)
    (turn : Nat) (st : LoopState) (usage : TokenUsage) (fuel : Nat)
    (hne : (backend turn).tool_calls.isEmpty = false) :
    runLoop tools backend turn st usage (Nat.succ fuel)
      = runLoop tools backend (turn + 1)
          (execToolCalls tools (backend turn).tool_calls
            { messages := st.messages ++ (backend turn).tool_call_messages,
              items := st.items ++ (backend turn).items }).snd
          (match (backend turn).usage with
           | some u => usage.add u
           | Option.none => usage) fuel := by
  rw [show runLoop tools backend turn st usage (Nat.succ fuel)
      = (let resp := backend turn;
         let usage1 := match resp.usage with
           | some u => usage.add u
           | Option.none => usage;
         let st1 : LoopState := { st with items := st.items ++ resp.items };
         if resp.tool_calls.isEmpty then (LoopResult.success resp.text usage1, st1)
         else
           let st2 : LoopState :=
             { st1 with messages := st1.messages ++ resp.tool_call_messages };
           match execToolCalls tools resp.tool_calls st2 with
           | (some e, st3) => (LoopResult.executionFault e, st3)
           | (Option.none, st3) => runLoop tools backend (turn + 1) st3 usage1 fuel)
      from rfl]
  simp only [hne, Bool.false_eq_true, if_false]
  rw [execToolCalls_eq tools (backend turn).tool_calls
    { messages := st.messages ++ (backend turn).tool_call_messages,
      items := st.items ++ (backend turn).items }]

/-- Unfolding one loop pass whose turn is text-only. -/
lemma runLoop_succ_text (tools : Option (List Tool)) (backend : Backend)
    (turn : Nat) (st : LoopState) (usage : TokenUsage) (fuel : Nat)
    (hemp : (backend turn).tool_calls.isEmpty = true) :
    runLoop tools backend turn st usage (Nat.succ fuel)
      = (LoopResult.success (backend turn).text
          (match (backend turn).usage with
           | some u => usage.add u
           | Option.none => usage),
         { st with items := st.items ++ (backend turn).items }) := by
  rw [show runLoop tools backend turn st usage (Nat.succ fuel)
      = (let resp := backend turn;
         let usage1 := match resp.usage with
           | some u => usage.add u
           | Option.none => usage;
         let st1 : LoopState := { st with items := st.items ++ resp.items };
         if resp.tool_calls.isEmpty then (LoopResult.success resp.text usage1, st1)
         else
           let st2 : LoopState :=
             { st1 with messages := st1.messages ++ resp.tool_call_messages };
           match execToolCalls tools resp.tool_calls st2 with
           | (some e, st3) => (LoopResult.executionFault e, st3)
           | (Option.none, st3) => runLoop tools backend (turn + 1) st3 usage1 fuel)
      from rfl]
  simp only [hemp, if_true]

/-- The loop reports the max-iterations error exactly when all the
turns it was allowed to request carry tool calls. -/
lemma runLoop_maxIterations_iff (tools : Option (List Tool)) (backend : Backend) :
    ∀ (fuel turn : Nat) (st : LoopState) (usage : TokenUsage),
      (runLoop tools backend turn st usage fuel).fst = LoopResult.maxIterations
        ↔ ∀ k, k < fuel → (backend (turn + k)).tool_calls.isEmpty = false := by
  intro fuel
  induction fuel with
  | zero =>
      intro turn st usage
      simp [runLoop]
  | succ fuel ih =>
      intro turn st usage
      cases hemp : (backend turn).tool_calls.isEmpty with
      | true =>
          rw [runLoop_succ_text tools backend turn st usage fuel hemp]
          constructor
          · intro h; cases h
          · intro hall
            have h0 := hall 0 (Nat.succ_pos _)
            rw [Nat.add_zero, hemp] at h0
            cases h0
      | false =>
          rw [runLoop_succ_tool_branch tools backend turn st usage fuel hemp, ih]
          constructor
          · intro h k hk
            cases k with
            | zero => rw [Nat.add_zero]; exact hemp
            | succ k =>
                have := h k (Nat.lt_of_succ_lt_succ hk)
                rw [show turn + 1 + k = turn + (k + 1) from by omega] at this
                exact this
          · intro h k hk
            have := h (k + 1) (Nat.succ_lt_succ hk)
            rw [show turn + (k + 1) = turn + 1 + k from by omega] at this
            exact this

/-- If the first text-only turn arrives at index `j` strictly inside
the bound, the loop returns that turn's text. -/
lemma runLoop_success_at (tools : Option (List Tool)) (backend : Backend) :
    ∀ (j fuel turn : Nat) (st : LoopState) (usage : TokenUsage),
      j < fuel →
      (∀ k, k < j → (backend (turn + k)).tool_calls.isEmpty = false) →
      (backend (turn + j)).tool_calls.isEmpty = true →
      ∃ u, (runLoop tools backend turn st usage fuel).fst
          = LoopResult.success (backend (turn + j)).text u := by
  intro j
  induction j with
  | zero =>
      intro fuel turn st usage hj _ hempty
      cases fuel with
      | zero => omega
      | succ f =>
          rw [Nat.add_zero] at hempty ⊢
          rw [runLoop_succ_text tools backend turn st usage f hempty]
          exact ⟨_, rfl⟩
  | succ j ih =>
      intro fuel turn st usage hj hall hempty
      cases fuel with
      | zero => omega
      | succ f =>
          have hne : (backend turn).tool_calls.isEmpty = false := by
            have := hall 0 (Nat.succ_pos _)
            rwa [Nat.add_zero] at this
          rw [runLoop_succ_tool_branch tools backend turn st usage f hne]
          have hall' : ∀ k, k < j → (backend (turn + 1 + k)).tool_calls.isEmpty = false := by
            intro k hk
            have := hall (k + 1) (Nat.succ_lt_succ hk)
            rwa [show turn + (k + 1) = turn + 1 + k from by omega] at this
          have hempty' : (backend (turn + 1 + j)).tool_calls.isEmpty = true := by
            rwa [show turn + (j + 1) = turn + 1 + j from by omega] at hempty
          obtain ⟨u, hu⟩ := ih f (turn + 1) _ _ (Nat.lt_of_succ_lt_succ hj) hall' hempty'
          refine ⟨u, ?_⟩
          rw [hu, show turn + 1 + j = turn + (j + 1) from by omega]

/-- A recoverable tool failure (or any tool call the dispatcher turns
into an output string) is fed back into the conversation as a
`function_call_output` entry and the loop proceeds to the next turn. -/
lemma loop_continues_after_recoverable (tools : Option (List Tool)) (cid tool_name : String)
    (args : PyVal) (out t1 : String) (tcm : List WireItem) (init : List WireItem)
    (hrun : runTool tools tool_name args = Except.ok out) :
    runNonstreamSync { tools := tools, max_iterations := 2 }
        (fun k => if k = 0 then
            { text := "", tool_calls := [{ call_id := cid, name := tool_name, arguments := args }],
              tool_call_messages := tcm }
          else { text := t1, tool_calls := [] }) init
      = (LoopResult.success t1 newTokenUsage,
         { messages := (init ++ tcm) ++ [WireItem.functionCallOutput cid out],
           items := [RunItem.toolCallOutput cid tool_name out] }) := by
  simp [runNonstreamSync, runLoop, execToolCalls, hrun]

/-- **C1 counterexample**: under the configured bound `M = 1`, a
scripted backend that requests one tool call in its first turn and
would return the text `"done"` in its second turn does *not* terminate
successfully: the loop raises the max-iterations error, because each
loop pass consumes one backend invocation and the bound is exhausted
before the text-only turn is requested. -/
theorem maxIterations_exact_round_counterexample :
    (runNonstreamSync { tools := some [noopTool], max_iterations := 1 } c1Backend []).fst
        = LoopResult.maxIterations
    ∧ ∀ u, (runNonstreamSync { tools := some [noopTool], max_iterations := 1 }
          c1Backend []).fst ≠ LoopResult.success "done" u := by
  have h0 : (runNonstreamSync { tools := some [noopTool], max_iterations := 1 }
      c1Backend []).fst = LoopResult.maxIterations := by rfl
  refine ⟨h0, ?_⟩
  intro u h
  rw [h0] at h
  cases h

/-- **C1 (amended)**: with a valid configuration, a scripted backend
requiring exactly `M` tool-dispatch rounds before its text-only turn
succeeds with that text under the bound `M + 1`, raises the
max-iterations error under the bound `M`, and in general the error is
raised exactly when every turn the bound admits requests tool calls
(so it is raised only once the bound is exhausted without a text-only
terminal turn). -/
theorem maxIterations_bound_characterization (tools : Option (List Tool))
    (backend : Backend) (M : Nat) (hM : 1 ≤ M)
    (hrounds : ∀ k, k < M → (backend k).tool_calls.isEmpty = false)
    (htext : (backend M).tool_calls.isEmpty = true) (init : List WireItem) :
    AgentCfg.validateConfig { tools := tools, max_iterations := M }
        = Except.ok { tools := tools, max_iterations := M }
    ∧ (∃ u, (runNonstreamSync { tools := tools, max_iterations := M + 1 } backend init).fst
        = LoopResult.success (backend M).text u)
    ∧ (runNonstreamSync { tools := tools, max_iterations := M } backend init).fst
        = LoopResult.maxIterations
    ∧ (∀ N, (runNonstreamSync { tools := tools, max_iterations := N } backend init).fst
          = LoopResult.maxIterations
        ↔ ∀ k, k < N → (backend k).tool_calls.isEmpty = false) := by
  refine ⟨?_, ?_, ?_, ?_⟩
  · simp [AgentCfg.validateConfig, Nat.not_lt.mpr hM]
  · have h := runLoop_success_at tools backend M (M + 1) 0
      { messages := init, items := [] } newTokenUsage (Nat.lt_succ_self M)
      (by intro k hk; simpa using hrounds k hk) (by simpa using htext)
    simpa [runNonstreamSync] using h
  · rw [show (runNonstreamSync { tools := tools, max_iterations := M } backend init).fst
        = (runLoop tools backend 0 { messages := init, items := [] } newTokenUsage M).fst
      from rfl]
    rw [runLoop_maxIterations_iff]
    intro k hk
    simpa using hrounds k hk
  · intro N
    rw [show (runNonstreamSync { tools := tools, max_iterations := N } backend init).fst
        = (runLoop tools backend 0 { messages := init, items := [] } newTokenUsage N).fst
      from rfl]
    rw [runLoop_maxIterations_iff]
    constructor
    · intro h k hk; simpa using h k hk
    · intro h k hk; simpa using h k hk

/-- Witness for the amended C1 at `M = 1` with a concrete scripted
backend. -/
theorem maxIterations_bound_characterization_witness :
    (1 ≤ 1)
    ∧ (AgentCfg.validateConfig { tools := some [noopTool], max_iterations := 1 }
          = Except.ok { tools := some [noopTool], max_iterations := 1 }
        ∧ (∃ u, (runNonstreamSync { tools := some [noopTool], max_iterations := 2 }
              c1Backend []).fst = LoopResult.success (c1Backend 1).text u)
        ∧ (runNonstreamSync { tools := some [noopTool], max_iterations := 1 } c1Backend []).fst
            = LoopResult.maxIterations
        ∧ (∀ N, (runNonstreamSync { tools := some [noopTool], max_iterations := N }
              c1Backend []).fst = LoopResult.maxIterations
            ↔ ∀ k, k < N → (c1Backend k).tool_calls.isEmpty = false)) :=
  ⟨by decide,
   maxIterations_bound_characterization (some [noopTool]) c1Backend 1 (by decide)
     (by
       intro k hk
       have hk0 : k = 0 := by omega
       subst hk0
       rfl)
     (by rfl) []⟩

/-- **C2 counterexample**: a tool whose own logic raises is *not*
fatal: `Tool.run` wraps the exception as `AgentToolExecutionError`,
which `Runner._run_tool` catches; the rendered error string is fed
back into the conversation as the tool's output, and the run continues
to the next turn and terminates successfully. -/
theorem toolLogic_exception_counterexample :
    runNonstreamSync { tools := some [boomTool], max_iterations := 2 } c2Backend []
        = (LoopResult.success "after" newTokenUsage,
           { messages := [WireItem.functionCallOutput "c1"
               "Error executing tool 'boom': Tool boom execution failed: kaboom"],
             items := [RunItem.toolCallOutput "c1" "boom"
               "Error executing tool 'boom': Tool boom execution failed: kaboom"] })
    ∧ ∀ m, (runNonstreamSync { tools := some [boomTool], max_iterations := 2 }
          c2Backend []).fst ≠ LoopResult.executionFault m := by
  have h0 : runNonstreamSync { tools := some [boomTool], max_iterations := 2 } c2Backend []
      = (LoopResult.success "after" newTokenUsage,
         { messages := [WireItem.functionCallOutput "c1"
             "Error executing tool 'boom': Tool boom execution failed: kaboom"],
           items := [RunItem.toolCallOutput "c1" "boom"
             "Error executing tool 'boom': Tool boom execution failed: kaboom"] }) := by
    rfl
  refine ⟨h0, ?_⟩
  intro m h
  rw [h0] at h
  cases h

/-- **C2 (amended)**: an exception raised by the tool's own logic is
wrapped as `AgentToolExecutionError` and caught locally by the runner,
which feeds the rendered error string back as that call's output and
continues the loop; the embedded dispatch path never reaches the
fatal `AgentExecutionError` re-raise (that path is reserved for faults
outside the tool-call/tool-execution taxonomy). -/
theorem toolLogic_exception_recovered_not_fatal :
    (∀ (ts : List Tool) (t : Tool) (tool_name : String) (kvs : List (String × PyVal))
        (f : List (String × PyVal) → Except String PyVal) (emsg : String),
      ts.find? (fun x => x.name == tool_name) = some t →
      t.func = some f →
      t.input_schema = Option.none →
      f kvs = Except.error emsg →
      runTool (some ts) tool_name (PyVal.dict kvs)
        = Except.ok ("Error executing tool '" ++ tool_name ++ "': "
            ++ ("Tool " ++ t.name ++ " execution failed: " ++ emsg)))
    ∧ (∀ (tools : Option (List Tool)) (tool_name : String) (tool_args : PyVal),
        ∃ out, runTool tools tool_name tool_args = Except.ok out)
    ∧ (∀ (tools : Option (List Tool)) (cid tool_name : String) (args : PyVal)
        (out t1 : String) (tcm init : List WireItem),
        runTool tools tool_name args = Except.ok out →
        runNonstreamSync { tools := tools, max_iterations := 2 }
            (fun k => if k = 0 then
                { text := "",
                  tool_calls := [{ call_id := cid, name := tool_name, arguments := args }],
                  tool_call_messages := tcm }
              else { text := t1, tool_calls := [] }) init
          = (LoopResult.success t1 newTokenUsage,
             { messages := (init ++ tcm) ++ [WireItem.functionCallOutput cid out],
               items := [RunItem.toolCallOutput cid tool_name out] })) := by
  refine ⟨?_, runTool_never_fatal, ?_⟩
  · intro ts t tool_name kvs f emsg hfind hfunc hschema hfail
    have hprep : validateAndPrepareTool (some ts) tool_name (PyVal.dict kvs)
        = Except.ok (t, kvs) := by
      simp [validateAndPrepareTool, findTool, hfind]
    have hrun : t.run kvs = Except.error (ToolFault.toolExecutionFault
        ("Tool " ++ t.name ++ " execution failed: " ++ emsg)) := by
      simp [Tool.run, hfunc, Tool.validateInput, hschema, hfail]
    simp [runTool, hprep, hrun]
  · intro tools cid tool_name args out t1 tcm init hrun
    exact loop_continues_after_recoverable tools cid tool_name args out t1 tcm init hrun

/-- Witness for the amended C2 at a concrete failing tool. -/
theorem toolLogic_exception_recovered_not_fatal_witness :
    runTool (some [boomTool]) "boom" (PyVal.dict [])
        = Except.ok "Error executing tool 'boom': Tool boom execution failed: kaboom" :=
  toolLogic_exception_recovered_not_fatal.1 [boomTool] boomTool "boom" []
    (fun _ => Except.error "kaboom") "kaboom" rfl rfl rfl rfl

/-- **C5**: call-shape failures are recoverable: an unknown tool name,
string arguments that are not valid JSON, or arguments parsing to a
non-object each produce a locally caught `AgentToolCallError` whose
human-readable rendering becomes the tool's output, and the loop
continues with that output fed back into the conversation instead of
aborting the run. -/
theorem toolCall_shape_errors_recoverable :
    (∀ (ts : List Tool) (tool_name : String) (args : PyVal),
      ts.find? (fun x => x.name == tool_name) = Option.none →
      runTool (some ts) tool_name args
        = Except.ok ("Error executing tool '" ++ tool_name ++ "': "
            ++ ("Tool '" ++ tool_name ++ "' not found")))
    ∧ (∀ (ts : List Tool) (t : Tool) (tool_name s : String),
        ts.find? (fun x => x.name == tool_name) = some t →
        parseJson s = Option.none →
        runTool (some ts) tool_name (PyVal.str s)
          = Except.ok ("Error executing tool '" ++ tool_name ++ "': "
              ++ ("Invalid JSON arguments for tool '" ++ tool_name ++ "'")))
    ∧ (∀ (ts : List Tool) (t : Tool) (tool_name s : String) (v : PyVal),
        ts.find? (fun x => x.name == tool_name) = some t →
        parseJson s = some v → v.isDict = false →
        runTool (some ts) tool_name (PyVal.str s)
          = Except.ok ("Error executing tool '" ++ tool_name ++ "': "
              ++ ("Tool '" ++ tool_name ++ "' arguments must be a JSON object")))
    ∧ (∀ (tools : Option (List Tool)) (cid tool_name : String) (args : PyVal)
        (out t1 : String) (tcm init : List WireItem),
        runTool tools tool_name args = Except.ok out →
        runNonstreamSync { tools := tools, max_iterations := 2 }
            (fun k => if k = 0 then
                { text := "",
                  tool_calls := [{ call_id := cid, name := tool_name, arguments := args }],
                  tool_call_messages := tcm }
              else { text := t1, tool_calls := [] }) init
          = (LoopResult.success t1 newTokenUsage,
             { messages := (init ++ tcm) ++ [WireItem.functionCallOutput cid out],
               items := [RunItem.toolCallOutput cid tool_name out] })) := by
  refine ⟨?_, ?_, ?_, ?_⟩
  · intro ts tool_name args hfind
    have hprep : validateAndPrepareTool (some ts) tool_name args
        = Except.error (ToolFault.toolCallFault
            ("Tool '" ++ tool_name ++ "' not found")) := by
      simp [validateAndPrepareTool, findTool, hfind]
    simp [runTool, hprep]
  · intro ts t tool_name s hfind hparse
    have hprep : validateAndPrepareTool (some ts) tool_name (PyVal.str s)
        = Except.error (ToolFault.toolCallFault
            ("Invalid JSON arguments for tool '" ++ tool_name ++ "'")) := by
      simp [validateAndPrepareTool, findTool, hfind, hparse]
    simp [runTool, hprep]
  · intro ts t tool_name s v hfind hparse hnd
    have hprep : validateAndPrepareTool (some ts) tool_name (PyVal.str s)
        = Except.error (ToolFault.toolCallFault
            ("Tool '" ++ tool_name ++ "' arguments must be a JSON object")) := by
      cases v <;> simp_all [validateAndPrepareTool, findTool, PyVal.isDict]
    simp [runTool, hprep]
  · intro tools cid tool_name args out t1 tcm init hrun
    exact loop_continues_after_recoverable tools cid tool_name args out t1 tcm init hrun

/-- Witness for C5 at concrete inputs: an unknown tool, malformed JSON
arguments, non-object arguments, and the loop continuing after the
unknown-tool observation. -/
theorem toolCall_shape_errors_recoverable_witness :
    runTool (some []) "ghost" (PyVal.dict [])
        = Except.ok "Error executing tool 'ghost': Tool 'ghost' not found"
    ∧ runTool (some [noopTool]) "noop" (PyVal.str "\x7b\"bad_json\"")
        = Except.ok "Error executing tool 'noop': Invalid JSON arguments for tool 'noop'"
    ∧ runTool (some [noopTool]) "noop" (PyVal.str "[\"not\", \"an\", \"object\"]")
        = Except.ok
            "Error executing tool 'noop': Tool 'noop' arguments must be a JSON object"
    ∧ runNonstreamSync { tools := some [], max_iterations := 2 }
          (fun k => if k = 0 then
              { text := "",
                tool_calls := [{ call_id := "c9", name := "ghost", arguments := PyVal.dict [] }],
                tool_call_messages := [] }
            else { text := "recovered", tool_calls := [] }) []
        = (LoopResult.success "recovered" newTokenUsage,
           { messages := [WireItem.functionCallOutput "c9"
               "Error executing tool 'ghost': Tool 'ghost' not found"],
             items := [RunItem.toolCallOutput "c9" "ghost"
               "Error executing tool 'ghost': Tool 'ghost' not found"] }) := by
  refine ⟨toolCall_shape_errors_recoverable.1 [] "ghost" (PyVal.dict []) rfl, ?_, ?_, ?_⟩
  · exact toolCall_shape_errors_recoverable.2.1 [noopTool] noopTool "noop" "\x7b\"bad_json\""
      rfl (by rfl)
  · exact toolCall_shape_errors_recoverable.2.2.1 [noopTool] noopTool "noop"
      "[\"not\", \"an\", \"object\"]"
      (PyVal.list [PyVal.str "not", PyVal.str "an", PyVal.str "object"]) rfl (by rfl) rfl
  · have h := toolCall_shape_errors_recoverable.2.2.2 (some []) "c9" "ghost"
      (PyVal.dict []) "Error executing tool 'ghost': Tool 'ghost' not found" "recovered"
      [] [] (toolCall_shape_errors_recoverable.1 [] "ghost" (PyVal.dict []) rfl)
    simpa using h

end Literun
